import Mathlib

/-! # XBee communication module of the sailing agent (px4/Communication.cpp)

A shallow embedding of the protocol engine of `src/px4/Communication.cpp`:
the receive phase `handleCommandReceive`, the transmit phase
`handleTelemetryTransmission` and the loop body of `worker`; of the two
transfer loops of `src/px4/SerialPort.cpp`; and of the layout of the packed
struct `TELEMETRY_DATA` of `src/px4/Communication.hpp`.

Modelling conventions.

* `long` time stamps are integers (`Int`).  The source subtracts two `long`
  values; signed overflow is undefined in C++, and the values are wall-clock
  milliseconds, so differences are taken in the integers.
* `uint8_t` is `Fin 256`; `uint16_t` command and telemetry fields are natural
  numbers, `int16_t` fields are integers.
* The serial port, the uORB subscriptions and the uORB publication are the
  environment.  What the environment answers during one call is an argument
  of the call; what the engine does to the environment (a read, a write, a
  poll, a publish) is returned as a list of `Event`s in program order.
* The target is little-endian (`memcpy` of two buffer bytes into a
  `uint16_t`), and the first bit-field of `STATUS_INFO` is bit 0 of
  `packedInfo`.
-/

namespace XBee

/-! ## Constants.hpp -/

namespace CommConstants

/-- The number of bytes of a command (`COMMAND_SIZE_BYTES`). -/
def COMMAND_SIZE_BYTES : Int := 3

/-- The index of the command id in the command buffer (`COMMAND_ID_IDX`). -/
def COMMAND_ID_IDX : Nat := 0

/-- Silence after which the connection counts as lost, in ms. -/
def CONNECTION_LOST_TIMEOUT : Int := 3000

/-- The interval of the telemetry transmission, in ms. -/
def TELEMETRY_TRANSMISSION_INTERVAL : Int := 1000

/-- The interval of the reconnect checks, in ms. -/
def RECONNECT_INTERVAL : Int := 1000

end CommConstants

/-! ## Communication.hpp -/

/-- The type `uint8_t`. -/
abbrev Byte := Fin 256

/-! The enum `CLIFTON_COMMAND_ID : uint8_t`, by its enumerator values. -/

namespace CLIFTON_COMMAND_ID

def HEARTBEAT : Nat := 0
def START_ROUTE : Nat := 1
def STOP_ROUTE : Nat := 2
def SET_COURSE : Nat := 3

end CLIFTON_COMMAND_ID

/-- The command buffer `uint8_t buffer[COMMAND_SIZE_BYTES]`. -/
structure Frame where
  b0 : Byte
  b1 : Byte
  b2 : Byte
deriving DecidableEq, Repr

/-- The fields of `clifton_command_s` the module writes: `course` is a
`uint16_t`, the two flags are `bool`. -/
structure CliftonCommand where
  course : Nat
  is_stop_route : Bool
  is_sail_agent_connected : Bool
deriving DecidableEq, Repr

/-- The packed struct `TELEMETRY_DATA`; `statusInfo` is the byte
`statusInfo.packedInfo` of the union `STATUS_INFO`. -/
structure TelemetryData where
  windDirection : Nat
  windSpeed : Nat
  agentSpeed : Nat
  agentPosX : Int
  agentPosY : Int
  batteryStatus : Nat
  agentDirection : Nat
  statusInfo : Nat
deriving DecidableEq, Repr

/-- The data members of `class Communication` that the worker reads and
writes. -/
structure Communication where
  m_IsConnected : Bool
  m_ThreadRunning : Bool
  m_LastCommandReceived : Int
  m_LastTelemetryTransmission : Int
  m_LastReconnectCheck : Int
  m_CliftonCommand : CliftonCommand
  m_TelemetryData : TelemetryData
deriving DecidableEq, Repr

/-! ## The environment -/

/-- A sample of the topic `sensordaten`, by the fields `sensordataPoll`
reads.  The message declaration is generated and not part of the sources, so
the field values are integers and the assignment to a telemetry field narrows
them to the type of that field. -/
structure Sensordaten where
  clifton_direction : Int
  ned_x : Int
  ned_y : Int
  clifton_speed : Int
  wind_speed : Int
  battery_status : Int
  median_wind_direction : Int
deriving DecidableEq, Repr

/-- A sample of the topic `vehicle_status`, by the field `vehicleStatusPoll`
reads. -/
structure VehicleStatus where
  nav_state : Nat
deriving DecidableEq, Repr

/-- The outcome of `m_SerialPort.readData(buffer, 3)`: the returned `bool`
and the contents of `buffer` after the call. -/
structure ReadOutcome where
  ok : Bool
  buffer : Frame
deriving DecidableEq, Repr

/-- What the serial port answers during one iteration of the worker loop. -/
structure SerialPortStep where
  /-- The value returned by `getAvailableBytes()`. -/
  availableBytes : Int
  /-- The outcome of `readData(buffer, 3)`, should it be called. -/
  readData : ReadOutcome
  /-- The value returned by `writeData(&m_TelemetryData, 14)`, should it be
  called. -/
  writeData : Bool
deriving DecidableEq, Repr

/-- What the two subscriptions answer during one iteration: `none` when
`updated()` is false, the copied sample otherwise. -/
structure Providers where
  sensordaten : Option Sensordaten
  vehicleStatus : Option VehicleStatus
deriving DecidableEq, Repr

/-- The calls the engine makes on its environment. -/
inductive Event where
  /-- A call of `m_SerialPort.readData(buffer, 3)`. -/
  | readData
  /-- A call of `m_CliftonCommandPub.publish` with this aggregate. -/
  | publish (c : CliftonCommand)
  /-- A call of `m_Sensordaten.updated()`. -/
  | sensordataPoll
  /-- A call of `m_VehicleStatus.updated()`. -/
  | vehicleStatusPoll
  /-- A call of `m_SerialPort.writeData` with this telemetry struct. -/
  | writeData (d : TelemetryData)
deriving DecidableEq, Repr

/-- The aggregates published by a list of events, in order. -/
def publications : List Event → List CliftonCommand
  | [] => []
  | Event.publish c :: es => c :: publications es
  | _ :: es => publications es

/-- The number of `readData` calls in a list of events. -/
def readAttempts : List Event → Nat
  | [] => 0
  | Event.readData :: es => readAttempts es + 1
  | _ :: es => readAttempts es

/-- The telemetry structs handed to `writeData` by a list of events. -/
def writeAttempts : List Event → List TelemetryData
  | [] => []
  | Event.writeData d :: es => d :: writeAttempts es
  | _ :: es => writeAttempts es

/-- The number of provider polls in a list of events. -/
def providerPolls : List Event → Nat
  | [] => 0
  | Event.sensordataPoll :: es => providerPolls es + 1
  | Event.vehicleStatusPoll :: es => providerPolls es + 1
  | _ :: es => providerPolls es

/-! ## Communication.cpp -/

/-- The conversion of an integer to `uint16_t`. -/
def toUInt16 (x : Int) : Nat := (x % 65536).toNat

/-- The conversion of an integer to `int16_t`. -/
def toInt16 (x : Int) : Int := (x + 32768) % 65536 - 32768

/-- The conversion of an integer to `uint8_t`. -/
def toUInt8 (x : Int) : Nat := (x % 256).toNat

/-- `Communication::invalidateTelemetryData`. -/
def invalidateTelemetryData (_pTelemData : TelemetryData) : TelemetryData :=
  { windDirection := 65535
    windSpeed := 65535
    agentSpeed := 65535
    agentPosX := 32767
    agentPosY := 32767
    batteryStatus := 255
    agentDirection := 65535
    statusInfo := 255 }

/-- The constructor `Communication::Communication`.  The telemetry struct is
a data member without initialiser; its contents before
`invalidateTelemetryData` are the argument `garbage`. -/
def Communication.ctor (garbage : TelemetryData) : Communication :=
  { m_IsConnected := false
    m_ThreadRunning := false
    m_LastCommandReceived := 0
    m_LastTelemetryTransmission := 0
    m_LastReconnectCheck := 0
    m_CliftonCommand :=
      { course := 0, is_stop_route := true, is_sail_agent_connected := false }
    m_TelemetryData := invalidateTelemetryData garbage }

/-- `Communication::init`, with the results of `m_SerialPort.create()` and of
`pthread_create` as arguments.  Returns the engine and the returned `bool`. -/
def init (s : Communication) (createOk threadOk : Bool) : Communication × Bool :=
  if createOk = false then (s, false)
  else
    let s1 := { s with m_ThreadRunning := true, m_IsConnected := true }
    if threadOk = false then ({ s1 with m_ThreadRunning := false }, false)
    else (s1, true)

/-- The pattern `{0xDE, 0xAD, 0xBE}` the command buffer is initialised
with. -/
def noCommand : Frame := ⟨0xDE, 0xAD, 0xBE⟩

/-- The condition of the first `if` of `handleCommandReceive` (lines
146-147). -/
def throttled (s : Communication) (currentSysTime : Int) : Bool :=
  !s.m_IsConnected &&
    decide (currentSysTime - s.m_LastReconnectCheck < CommConstants.RECONNECT_INTERVAL)

/-- The result of evaluating the condition of the second `if` of
`handleCommandReceive`: its value, the buffer afterwards and the calls
made. -/
structure ReadStep where
  lost : Bool
  buffer : Frame
  events : List Event
deriving DecidableEq, Repr

/-- The condition of the second `if` of `handleCommandReceive` (lines
151-154), evaluated left to right with the short circuit of `||` and `&&`. -/
def readStep (s : Communication) (port : SerialPortStep) (currentSysTime : Int) :
    ReadStep :=
  let availableBytes := port.availableBytes
  let buffer := noCommand
  if availableBytes ≤ 0 ∧
      currentSysTime - s.m_LastCommandReceived ≥ CommConstants.CONNECTION_LOST_TIMEOUT then
    { lost := true, buffer := buffer, events := [] }
  else if availableBytes ≥ CommConstants.COMMAND_SIZE_BYTES then
    { lost := !port.readData.ok, buffer := port.readData.buffer,
      events := [Event.readData] }
  else
    { lost := false, buffer := buffer, events := [] }

/-- The value of the two buffer bytes after the id, copied into a
`uint16_t`. -/
def parameter (buffer : Frame) : Nat := buffer.b1.val + 256 * buffer.b2.val

/-- The `switch` of `handleCommandReceive` (lines 181-207) on the command
aggregate. -/
def fillCommand (c : CliftonCommand) (buffer : Frame) : CliftonCommand :=
  if buffer.b0.val = CLIFTON_COMMAND_ID.HEARTBEAT then c
  else if buffer.b0.val = CLIFTON_COMMAND_ID.SET_COURSE then
    { c with course := parameter buffer }
  else if buffer.b0.val = CLIFTON_COMMAND_ID.START_ROUTE then
    { c with is_stop_route := false }
  else if buffer.b0.val = CLIFTON_COMMAND_ID.STOP_ROUTE then
    { c with is_stop_route := true }
  else c

/-- `Communication::handleCommandReceive`.  Returns the engine afterwards and
the calls made on the environment. -/
def handleCommandReceive (s : Communication) (port : SerialPortStep)
    (currentSysTime : Int) : Communication × List Event :=
  if throttled s currentSysTime = true then (s, [])
  else
    let r := readStep s port currentSysTime
    if r.lost = true then
      if s.m_IsConnected = true then
        let c := { s.m_CliftonCommand with is_sail_agent_connected := false }
        ({ s with m_IsConnected := false, m_CliftonCommand := c,
                  m_LastReconnectCheck := currentSysTime },
          r.events ++ [Event.publish c])
      else
        ({ s with m_LastReconnectCheck := currentSysTime }, r.events)
    else if r.buffer = noCommand then (s, r.events)
    else
      let s1 := if s.m_IsConnected = false then { s with m_IsConnected := true } else s
      let c := fillCommand
        { s1.m_CliftonCommand with is_sail_agent_connected := s1.m_IsConnected } r.buffer
      ({ s1 with m_CliftonCommand := c, m_LastCommandReceived := currentSysTime },
        r.events ++ [Event.publish c])

/-- `Communication::sensordataPoll`; `sub` is `none` when
`m_Sensordaten.updated()` is false and the copied sample otherwise. -/
def sensordataPoll (sub : Option Sensordaten) (pTelemData : TelemetryData) :
    TelemetryData :=
  match sub with
  | none => pTelemData
  | some sensorData =>
    { pTelemData with
      agentDirection := toUInt16 sensorData.clifton_direction
      agentPosX := toInt16 sensorData.ned_x
      agentPosY := toInt16 sensorData.ned_y
      agentSpeed := toUInt16 sensorData.clifton_speed
      windSpeed := toUInt16 sensorData.wind_speed
      batteryStatus := toUInt8 sensorData.battery_status
      windDirection := toUInt16 sensorData.median_wind_direction }

/-- The assignment to the one-bit field `statusInfo.isAutonomous`: bit 0 of
the packed byte is replaced, bits 1 to 7 are kept. -/
def setIsAutonomous (packedInfo : Nat) (v : Bool) : Nat :=
  packedInfo / 2 * 2 + (if v = true then 1 else 0)

/-- `Communication::vehicleStatusPoll`; `sub` is `none` when
`m_VehicleStatus.updated()` is false and the copied sample otherwise.  The
constant `vehicle_status_s::NAVIGATION_STATE_ACRO` is declared in a generated
header and is an argument. -/
def vehicleStatusPoll (NAVIGATION_STATE_ACRO : Nat) (sub : Option VehicleStatus)
    (pTelemData : TelemetryData) : TelemetryData :=
  match sub with
  | none => pTelemData
  | some vechicleStatus =>
    { pTelemData with
      statusInfo := setIsAutonomous pTelemData.statusInfo
        (decide (vechicleStatus.nav_state = NAVIGATION_STATE_ACRO)) }

/-- `Communication::handleTelemetryTransmission`.  Returns the engine
afterwards and the calls made on the environment. -/
def handleTelemetryTransmission (NAVIGATION_STATE_ACRO : Nat) (s : Communication)
    (port : SerialPortStep) (prov : Providers) (currentSysTime : Int) :
    Communication × List Event :=
  if s.m_IsConnected = false ∨
      currentSysTime - s.m_LastTelemetryTransmission
        < CommConstants.TELEMETRY_TRANSMISSION_INTERVAL then
    (s, [])
  else
    let t1 := sensordataPoll prov.sensordaten s.m_TelemetryData
    let t2 := vehicleStatusPoll NAVIGATION_STATE_ACRO prov.vehicleStatus t1
    let s1 := { s with m_TelemetryData := t2 }
    let events := [Event.sensordataPoll, Event.vehicleStatusPoll, Event.writeData t2]
    if port.writeData = false then (s1, events)
    else ({ s1 with m_LastTelemetryTransmission := currentSysTime }, events)

/-- What the environment answers during one iteration of the loop of
`worker`: the time read by `getCurrentTimeInMs`, the serial port and the
subscriptions. -/
structure WorkerInput where
  currentSysTime : Int
  port : SerialPortStep
  providers : Providers
deriving DecidableEq, Repr

/-- The body of the loop of `Communication::worker`: the receive phase, then
the transmit phase, with the same time value. -/
def workerStep (NAVIGATION_STATE_ACRO : Nat) (s : Communication) (i : WorkerInput) :
    Communication × List Event :=
  let r1 := handleCommandReceive s i.port i.currentSysTime
  let r2 := handleTelemetryTransmission NAVIGATION_STATE_ACRO r1.1 i.port i.providers
    i.currentSysTime
  (r2.1, r1.2 ++ r2.2)

/-- `Communication::worker` over the iterations whose environment answers are
listed: the loop runs while `m_ThreadRunning` is set. -/
def worker (NAVIGATION_STATE_ACRO : Nat) :
    Communication → List WorkerInput → Communication × List Event
  | s, [] => (s, [])
  | s, i :: rest =>
    if s.m_ThreadRunning = false then (s, [])
    else
      let r := workerStep NAVIGATION_STATE_ACRO s i
      let r2 := worker NAVIGATION_STATE_ACRO r.1 rest
      (r2.1, r.2 ++ r2.2)

/-- The engine when the worker starts: constructed, then `init` with the
serial port opened and the thread created. -/
def initialEngine (garbage : TelemetryData) : Communication :=
  (init (Communication.ctor garbage) true true).1

/-- What the environment answers during one receive phase. -/
structure ReceiveInput where
  currentSysTime : Int
  port : SerialPortStep
deriving DecidableEq, Repr

/-- A sequence of receive phases, one after the other. -/
def receivePhases : Communication → List ReceiveInput → Communication
  | s, [] => s
  | s, i :: rest =>
    receivePhases (handleCommandReceive s i.port i.currentSysTime).1 rest

/-- The parameter of the last `SET_COURSE` frame of a list of frames, if
there is one. -/
def lastSetCourse : List Frame → Option Nat
  | [] => none
  | f :: rest =>
    match lastSetCourse rest with
    | some p => some p
    | none => if f.b0.val = CLIFTON_COMMAND_ID.SET_COURSE then some (parameter f) else none

/-- The connection flags of the aggregates published by a list of events. -/
def publishedFlags (es : List Event) : List Bool :=
  (publications es).map (fun c => c.is_sail_agent_connected)

/-- Every `false` of the list has a `true` somewhere before it. -/
def PrecededByTrue (l : List Bool) : Prop :=
  ∀ l2 l3 : List Bool, l = l2 ++ false :: l3 → true ∈ l2

/-- Any two `false` entries of the list have a `true` between them. -/
def Separated (l : List Bool) : Prop :=
  ∀ l1 l2 l3 : List Bool, l = l1 ++ false :: (l2 ++ false :: l3) → true ∈ l2

/-- The bit-field `reserved : 7` of `STATUS_INFO`: bits 1 to 7 of the packed
byte. -/
def reservedBits (packedInfo : Nat) : Nat := packedInfo / 2 % 128

/-- An engine the worker can reach from the initial engine. -/
def Reachable (NAVIGATION_STATE_ACRO : Nat) (s : Communication) : Prop :=
  ∃ (garbage : TelemetryData) (inputs : List WorkerInput),
    s = (worker NAVIGATION_STATE_ACRO (initialEngine garbage) inputs).1

/-! ## The telemetry frame on the wire -/

/-- The byte that holds bits 0 to 7 of a number. -/
def byteOf (n : Nat) : Byte := ⟨n % 256, Nat.mod_lt n (by decide)⟩

/-- The two bytes of a 16-bit value in memory on the little-endian target:
the low byte at the lower address. -/
def bytes16 (n : Nat) : List Byte := [byteOf n, byteOf (n / 256)]

/-- The 14 bytes of a `TELEMETRY_DATA` object, which `writeData` is handed
with `sizeof(TELEMETRY_DATA)`: under `#pragma pack(push, 1)` the fields lie in
declaration order without padding; an `int16_t` is stored in two's
complement. -/
def TelemetryData.bytes (d : TelemetryData) : List Byte :=
  bytes16 d.windDirection ++ bytes16 d.windSpeed ++ bytes16 d.agentSpeed ++
    bytes16 (toUInt16 d.agentPosX) ++ bytes16 (toUInt16 d.agentPosY) ++
    [byteOf d.batteryStatus] ++ bytes16 d.agentDirection ++ [byteOf d.statusInfo]

/-- The unsigned 16-bit value of two bytes, low byte first. -/
def readUInt16 (lo hi : Byte) : Nat := lo.val + 256 * hi.val

/-- The signed 16-bit value of two bytes, low byte first, in two's
complement. -/
def readInt16 (lo hi : Byte) : Int :=
  if readUInt16 lo hi < 32768 then (readUInt16 lo hi : Int)
  else (readUInt16 lo hi : Int) - 65536

/-- Modelled from the spec: the decoder of the telemetry frame, which runs on
the receiver and is not part of the sources.  It reads the eight fields back
from 14 bytes with the same layout: fields in declaration order at the
offsets 0, 2, 4, 6, 8, 10, 11 and 13, multi-byte fields little-endian. -/
def decodeTelemetry : List Byte → Option TelemetryData
  | [a0, a1, a2, a3, a4, a5, a6, a7, a8, a9, a10, a11, a12, a13] =>
    some
      { windDirection := readUInt16 a0 a1
        windSpeed := readUInt16 a2 a3
        agentSpeed := readUInt16 a4 a5
        agentPosX := readInt16 a6 a7
        agentPosY := readInt16 a8 a9
        batteryStatus := a10.val
        agentDirection := readUInt16 a11 a12
        statusInfo := a13.val }
  | _ => none

/-! ## SerialPort.cpp -/

namespace SerialPort

/-- Where a transfer loop stands when the listed call results are used up:
what it returned, if it returned, and the bytes counted. -/
structure Transfer where
  /-- The returned `bool`; `none` when the loop is still running. -/
  returned : Option Bool
  /-- The value of `bytesRead` or `bytesWrite`. -/
  bytes : Nat
deriving DecidableEq, Repr

/-- The loop of `SerialPort::readData` from a value of `bytesRead`, over the
results of the successive calls of `read`.  A result is at most the count
`size - bytesRead` the call was given, so the addition to the `size_t`
counter is exact. -/
def readLoop (size : Nat) : List Int → Nat → Transfer
  | [], bytesRead =>
    if bytesRead < size then ⟨none, bytesRead⟩ else ⟨some true, bytesRead⟩
  | result :: rest, bytesRead =>
    if bytesRead < size then
      if result < 0 then ⟨some false, bytesRead⟩
      else readLoop size rest (bytesRead + result.toNat)
    else ⟨some true, bytesRead⟩

/-- `SerialPort::readData` over the results of the successive calls of
`read`. -/
def readData (size : Nat) (results : List Int) : Transfer := readLoop size results 0

/-- The loop of `SerialPort::writeData` from a value of `bytesWrite`, over
the results of the successive calls of `write`. -/
def writeLoop (size : Nat) : List Int → Nat → Transfer
  | [], bytesWrite =>
    if bytesWrite < size then ⟨none, bytesWrite⟩ else ⟨some true, bytesWrite⟩
  | result :: rest, bytesWrite =>
    if bytesWrite < size then
      if result < 0 then ⟨some false, bytesWrite⟩
      else writeLoop size rest (bytesWrite + result.toNat)
    else ⟨some true, bytesWrite⟩

/-- `SerialPort::writeData` over the results of the successive calls of
`write`. -/
def writeData (size : Nat) (results : List Int) : Transfer := writeLoop size results 0

end SerialPort

/-- The bytes counted over non-negative call results. -/
def accumulated (results : List Int) : Nat := (results.map Int.toNat).sum

/-- Every call the loop makes returns at most the count it was given, the
bytes still missing. -/
def withinRequest (size : Nat) : List Int → Nat → Bool
  | [], _ => true
  | result :: rest, done =>
    decide (size ≤ done) || (decide (result ≤ (size : Int) - (done : Int)) &&
      (decide (result < 0) || withinRequest size rest (done + result.toNat)))

/-- What C15 says of an exact-length transfer of `size` bytes over the call
results `results`. -/
def ExactLength (transfer : Nat → List Int → SerialPort.Transfer) (size : Nat)
    (results : List Int) : Prop :=
  ((transfer size results).returned = some false ↔
    ∃ (before : List Int) (r : Int) (after : List Int),
      results = before ++ r :: after ∧ r < 0 ∧ (∀ x ∈ before, 0 ≤ x) ∧
      accumulated before < size) ∧
  ((transfer size results).returned = some true ↔
    ∃ (before after : List Int),
      results = before ++ after ∧ (∀ x ∈ before, 0 ≤ x) ∧ size ≤ accumulated before) ∧
  (transfer size results).bytes ≤ size ∧
  ((transfer size results).returned = some true → (transfer size results).bytes = size) ∧
  ((∀ x ∈ results, x ≠ 0) → size ≤ results.length →
    (transfer size results).returned ≠ none)

/-! ## Sample values -/

/-- An engine in state Connected with the time stamps at zero. -/
def sampleConnected : Communication :=
  initialEngine ⟨0, 0, 0, 0, 0, 0, 0, 0⟩

/-- An engine in state Disconnected whose last reconnect check was at 0. -/
def sampleDisconnected : Communication :=
  { sampleConnected with m_IsConnected := false }

/-- A serial port with `n` bytes pending whose read succeeds with `f`. -/
def portWith (n : Int) (f : Frame) : SerialPortStep :=
  { availableBytes := n, readData := ⟨true, f⟩, writeData := true }

/-! ## Lists of events -/

theorem publications_append (a b : List Event) :
    publications (a ++ b) = publications a ++ publications b := by
  induction a with
  | nil => rfl
  | cons e es ih => cases e <;> simp [publications, ih]

theorem readStep_publications (s : Communication) (port : SerialPortStep) (now : Int) :
    publications (readStep s port now).events = [] := by
  simp only [readStep]
  split_ifs <;> rfl

theorem readStep_of_available (s : Communication) (port : SerialPortStep) (now : Int)
    (ha : 3 ≤ port.availableBytes) :
    readStep s port now =
      { lost := !port.readData.ok, buffer := port.readData.buffer,
        events := [Event.readData] } := by
  have h3 : ¬ port.availableBytes ≤ 0 := by omega
  simp [readStep, CommConstants.COMMAND_SIZE_BYTES, ha, h3]

/-- The receive phase on a frame that is read and is not the initial pattern
of the buffer: the engine is Connected, the aggregate is filled from the
frame, the time of the last command is the current time, and the aggregate
is published. -/
theorem handleCommandReceive_dispatch (s : Communication) (port : SerialPortStep)
    (now : Int) (f : Frame) (ht : throttled s now = false)
    (ha : 3 ≤ port.availableBytes) (hr : port.readData = ⟨true, f⟩)
    (hf : f ≠ noCommand) :
    handleCommandReceive s port now =
      ({ s with
          m_IsConnected := true
          m_CliftonCommand :=
            fillCommand { s.m_CliftonCommand with is_sail_agent_connected := true } f
          m_LastCommandReceived := now },
        [Event.readData, Event.publish
          (fillCommand { s.m_CliftonCommand with is_sail_agent_connected := true } f)]) := by
  have hs := readStep_of_available s port now ha
  rw [hr] at hs
  cases hc : s.m_IsConnected <;>
    simp [handleCommandReceive, ht, hs, hf, hc]

theorem precededByTrue_nil : PrecededByTrue [] := by
  intro l2 l3 h
  simp at h

theorem precededByTrue_true_cons (l : List Bool) : PrecededByTrue (true :: l) := by
  intro l2 l3 h
  cases l2 with
  | nil => simp at h
  | cons b l2 =>
    simp only [List.cons_append, List.cons.injEq] at h
    simp [← h.1]

theorem separated_nil : Separated [] := by
  intro l1 l2 l3 h
  simp at h

theorem separated_true_cons (l : List Bool) (h : Separated l) : Separated (true :: l) := by
  intro l1 l2 l3 he
  cases l1 with
  | nil => simp at he
  | cons b l1 =>
    simp only [List.cons_append, List.cons.injEq] at he
    exact h l1 l2 l3 he.2

theorem separated_false_cons (l : List Bool) (h : Separated l) (hp : PrecededByTrue l) :
    Separated (false :: l) := by
  intro l1 l2 l3 he
  cases l1 with
  | nil =>
    simp only [List.nil_append, List.cons.injEq, true_and] at he
    exact hp l2 l3 he
  | cons b l1 =>
    simp only [List.cons_append, List.cons.injEq] at he
    exact h l1 l2 l3 he.2

theorem fillCommand_connected (c : CliftonCommand) (f : Frame) :
    (fillCommand c f).is_sail_agent_connected = c.is_sail_agent_connected := by
  simp only [fillCommand]
  split_ifs <;> rfl

/-- The publishes of one receive phase: none with the connection state kept,
or one with `false` on leaving Connected, or one with `true` ending
Connected. -/
theorem handleCommandReceive_flags (s : Communication) (port : SerialPortStep) (now : Int) :
    (publishedFlags (handleCommandReceive s port now).2 = [] ∧
      (handleCommandReceive s port now).1.m_IsConnected = s.m_IsConnected) ∨
    (publishedFlags (handleCommandReceive s port now).2 = [false] ∧
      s.m_IsConnected = true ∧
      (handleCommandReceive s port now).1.m_IsConnected = false) ∨
    (publishedFlags (handleCommandReceive s port now).2 = [true] ∧
      (handleCommandReceive s port now).1.m_IsConnected = true) := by
  cases ht : throttled s now
  · cases hl : (readStep s port now).lost
    · by_cases hb : (readStep s port now).buffer = noCommand
      · left
        simp [handleCommandReceive, ht, hl, hb, publishedFlags, readStep_publications]
      · right; right
        cases hc : s.m_IsConnected <;>
          simp [handleCommandReceive, ht, hl, hb, hc, publishedFlags, publications_append,
            readStep_publications, publications, fillCommand_connected]
    · cases hc : s.m_IsConnected
      · left
        simp [handleCommandReceive, ht, hl, hc, publishedFlags, readStep_publications]
      · right; left
        simp [handleCommandReceive, ht, hl, hc, publishedFlags, publications_append,
          readStep_publications, publications]
  · left
    simp [handleCommandReceive, ht, publishedFlags, publications]

/-- The transmit phase publishes nothing and keeps the connection state and
the aggregate. -/
theorem handleTelemetryTransmission_keeps (acro : Nat) (s : Communication)
    (port : SerialPortStep) (prov : Providers) (now : Int) :
    publications (handleTelemetryTransmission acro s port prov now).2 = [] ∧
    (handleTelemetryTransmission acro s port prov now).1.m_IsConnected = s.m_IsConnected ∧
    (handleTelemetryTransmission acro s port prov now).1.m_CliftonCommand
      = s.m_CliftonCommand := by
  simp only [handleTelemetryTransmission]
  split_ifs <;> simp [publications]

theorem workerStep_flags (acro : Nat) (s : Communication) (i : WorkerInput) :
    (publishedFlags (workerStep acro s i).2 = [] ∧
      (workerStep acro s i).1.m_IsConnected = s.m_IsConnected) ∨
    (publishedFlags (workerStep acro s i).2 = [false] ∧
      s.m_IsConnected = true ∧ (workerStep acro s i).1.m_IsConnected = false) ∨
    (publishedFlags (workerStep acro s i).2 = [true] ∧
      (workerStep acro s i).1.m_IsConnected = true) := by
  have ht := handleTelemetryTransmission_keeps acro
    (handleCommandReceive s i.port i.currentSysTime).1 i.port i.providers i.currentSysTime
  have hf : publishedFlags (workerStep acro s i).2
      = publishedFlags (handleCommandReceive s i.port i.currentSysTime).2 := by
    simp [workerStep, publishedFlags, publications_append, ht.1]
  have hc : (workerStep acro s i).1.m_IsConnected
      = (handleCommandReceive s i.port i.currentSysTime).1.m_IsConnected := by
    simp [workerStep, ht.2.1]
  rw [hf, hc]
  exact handleCommandReceive_flags s i.port i.currentSysTime

/-- The publishes of a run of the worker from any engine: two with `false`
are separated by one with `true`, and from Disconnected the first publish is
not one with `false`. -/
theorem worker_flags (acro : Nat) : ∀ (inputs : List WorkerInput) (s : Communication),
    Separated (publishedFlags (worker acro s inputs).2) ∧
    (s.m_IsConnected = false → PrecededByTrue (publishedFlags (worker acro s inputs).2))
  | [], s => by
    simp only [worker, publishedFlags, publications, List.map_nil]
    exact ⟨separated_nil, fun _ => precededByTrue_nil⟩
  | i :: rest, s => by
    have ih := worker_flags acro rest (workerStep acro s i).1
    by_cases hrun : s.m_ThreadRunning = false
    · simp only [worker, hrun, if_true, publishedFlags, publications, List.map_nil]
      exact ⟨separated_nil, fun _ => precededByTrue_nil⟩
    · have hw : publishedFlags (worker acro s (i :: rest)).2
          = publishedFlags (workerStep acro s i).2
            ++ publishedFlags (worker acro (workerStep acro s i).1 rest).2 := by
        simp [worker, hrun, publishedFlags, publications_append]
      rw [hw]
      rcases workerStep_flags acro s i with ⟨h1, h2⟩ | ⟨h1, h2, h3⟩ | ⟨h1, _⟩
      · rw [h1, List.nil_append]
        exact ⟨ih.1, fun hd => ih.2 (h2.trans hd)⟩
      · rw [h1]
        refine ⟨separated_false_cons _ ih.1 (ih.2 h3), fun hd => ?_⟩
        rw [h2] at hd
        cases hd
      · rw [h1]
        exact ⟨separated_true_cons _ ih.1, fun _ => precededByTrue_true_cons _⟩

theorem throttled_of_connected (s : Communication) (now : Int)
    (hc : s.m_IsConnected = true) : throttled s now = false := by
  simp [throttled, hc]

theorem fillCommand_heartbeat (c : CliftonCommand) (f : Frame) (h : f.b0.val = 0) :
    fillCommand c f = c := by
  simp [fillCommand, CLIFTON_COMMAND_ID.HEARTBEAT, h]

theorem fillCommand_setCourse (c : CliftonCommand) (f : Frame) (h : f.b0.val = 3) :
    fillCommand c f = { c with course := parameter f } := by
  simp [fillCommand, CLIFTON_COMMAND_ID.HEARTBEAT, CLIFTON_COMMAND_ID.SET_COURSE, h]

theorem fillCommand_startRoute (c : CliftonCommand) (f : Frame) (h : f.b0.val = 1) :
    fillCommand c f = { c with is_stop_route := false } := by
  simp [fillCommand, CLIFTON_COMMAND_ID.HEARTBEAT, CLIFTON_COMMAND_ID.SET_COURSE,
    CLIFTON_COMMAND_ID.START_ROUTE, h]

theorem fillCommand_stopRoute (c : CliftonCommand) (f : Frame) (h : f.b0.val = 2) :
    fillCommand c f = { c with is_stop_route := true } := by
  simp [fillCommand, CLIFTON_COMMAND_ID.HEARTBEAT, CLIFTON_COMMAND_ID.SET_COURSE,
    CLIFTON_COMMAND_ID.START_ROUTE, CLIFTON_COMMAND_ID.STOP_ROUTE, h]

theorem fillCommand_unrecognized (c : CliftonCommand) (f : Frame) (h0 : f.b0.val ≠ 0)
    (h1 : f.b0.val ≠ 1) (h2 : f.b0.val ≠ 2) (h3 : f.b0.val ≠ 3) :
    fillCommand c f = c := by
  simp [fillCommand, CLIFTON_COMMAND_ID.HEARTBEAT, CLIFTON_COMMAND_ID.SET_COURSE,
    CLIFTON_COMMAND_ID.START_ROUTE, CLIFTON_COMMAND_ID.STOP_ROUTE, h0, h1, h2, h3]

theorem ne_noCommand_of_id (f : Frame) (h : f.b0.val ≠ 0xDE) : f ≠ noCommand := by
  intro he
  apply h
  rw [he]
  rfl

/-- A run of receive phases each of which reads a `HEARTBEAT` or a
`SET_COURSE` frame: the course is the parameter of the last `SET_COURSE`
frame, or the course at the start when there is none. -/
theorem receivePhases_course : ∀ (inputs : List ReceiveInput) (s : Communication),
    (∀ i, inputs.head? = some i → throttled s i.currentSysTime = false) →
    (∀ i ∈ inputs, 3 ≤ i.port.availableBytes ∧ i.port.readData.ok = true ∧
      (i.port.readData.buffer.b0.val = 0 ∨ i.port.readData.buffer.b0.val = 3)) →
    (receivePhases s inputs).m_CliftonCommand.course
      = (lastSetCourse (inputs.map (fun i => i.port.readData.buffer))).getD
          s.m_CliftonCommand.course
  | [], s, _, _ => by simp [receivePhases, lastSetCourse]
  | i :: rest, s, ht, hall => by
    obtain ⟨ha, hok, hid⟩ := hall i (List.mem_cons_self i rest)
    have hr : i.port.readData = ⟨true, i.port.readData.buffer⟩ := by
      rw [← hok]
    have hf : i.port.readData.buffer ≠ noCommand :=
      ne_noCommand_of_id _ (by rcases hid with h | h <;> rw [h] <;> decide)
    have hd := handleCommandReceive_dispatch s i.port i.currentSysTime
      i.port.readData.buffer (ht i rfl) ha hr hf
    have ih := receivePhases_course rest (handleCommandReceive s i.port i.currentSysTime).1
      (fun j _ => throttled_of_connected _ _ (by rw [hd]))
      (fun j hj => hall j (List.mem_cons_of_mem i hj))
    simp only [receivePhases, List.map_cons, lastSetCourse]
    rw [ih]
    cases hl : lastSetCourse (rest.map (fun i => i.port.readData.buffer)) with
    | some p => simp
    | none =>
      rw [hd]
      rcases hid with h | h
      · simp [fillCommand_heartbeat _ _ h, CLIFTON_COMMAND_ID.SET_COURSE, h]
      · simp [fillCommand_setCourse _ _ h, CLIFTON_COMMAND_ID.SET_COURSE, h]

theorem handleTelemetryTransmission_idle (acro : Nat) (s : Communication)
    (port : SerialPortStep) (prov : Providers) (now : Int)
    (h : s.m_IsConnected = false ∨ now - s.m_LastTelemetryTransmission < 1000) :
    handleTelemetryTransmission acro s port prov now = (s, []) := by
  simp only [handleTelemetryTransmission, CommConstants.TELEMETRY_TRANSMISSION_INTERVAL]
  rw [if_pos h]

theorem handleTelemetryTransmission_send (acro : Nat) (s : Communication)
    (port : SerialPortStep) (prov : Providers) (now : Int)
    (hc : s.m_IsConnected = true) (h : 1000 ≤ now - s.m_LastTelemetryTransmission) :
    handleTelemetryTransmission acro s port prov now =
      ({ s with
          m_TelemetryData := vehicleStatusPoll acro prov.vehicleStatus
            (sensordataPoll prov.sensordaten s.m_TelemetryData)
          m_LastTelemetryTransmission :=
            if port.writeData = false then s.m_LastTelemetryTransmission else now },
        [Event.sensordataPoll, Event.vehicleStatusPoll,
          Event.writeData (vehicleStatusPoll acro prov.vehicleStatus
            (sensordataPoll prov.sensordaten s.m_TelemetryData))]) := by
  have hg : ¬ (s.m_IsConnected = false ∨ now - s.m_LastTelemetryTransmission < 1000) := by
    rintro (h1 | h1)
    · rw [hc] at h1
      cases h1
    · omega
  simp only [handleTelemetryTransmission, CommConstants.TELEMETRY_TRANSMISSION_INTERVAL]
  rw [if_neg hg]
  cases hw : port.writeData <;> simp

/-- When the condition of the loss branch is false with the buffer holding
its initial pattern, by the answers of the serial port: nothing pending
before the timeout, one or two bytes pending, or the pattern itself read. -/
theorem readStep_noCommand_iff (s : Communication) (port : SerialPortStep) (now : Int) :
    ((readStep s port now).lost = false ∧ (readStep s port now).buffer = noCommand) ↔
      ((port.availableBytes ≤ 0 ∧ now - s.m_LastCommandReceived < 3000) ∨
        (0 < port.availableBytes ∧ port.availableBytes < 3) ∨
        (3 ≤ port.availableBytes ∧ port.readData = ⟨true, noCommand⟩)) := by
  by_cases h0 : port.availableBytes ≤ 0
  · by_cases h1 : now - s.m_LastCommandReceived < 3000
    · have h2 : ¬ 3000 ≤ now - s.m_LastCommandReceived := by omega
      have h3 : ¬ 3 ≤ port.availableBytes := by omega
      simp [readStep, CommConstants.CONNECTION_LOST_TIMEOUT, CommConstants.COMMAND_SIZE_BYTES,
        h0, h1, h2, h3]
    · have h2 : 3000 ≤ now - s.m_LastCommandReceived := by omega
      have h3 : ¬ 3 ≤ port.availableBytes := by omega
      have h4 : ¬ 0 < port.availableBytes := by omega
      simp [readStep, CommConstants.CONNECTION_LOST_TIMEOUT, h0, h1, h2, h3, h4]
  · by_cases h3 : 3 ≤ port.availableBytes
    · have h4 : ¬ port.availableBytes < 3 := by omega
      rw [readStep_of_available s port now h3]
      constructor
      · rintro ⟨hl, hb⟩
        right; right
        refine ⟨h3, ?_⟩
        have hok : port.readData.ok = true := by simpa using hl
        have hb2 : port.readData.buffer = noCommand := hb
        rw [← hok, ← hb2]
      · rintro (⟨h, _⟩ | ⟨_, h⟩ | ⟨_, h⟩)
        · exact absurd h h0
        · exact absurd h h4
        · rw [h]
          exact ⟨rfl, rfl⟩
    · have h4 : 0 < port.availableBytes ∧ port.availableBytes < 3 := by omega
      simp [readStep, CommConstants.COMMAND_SIZE_BYTES, h0, h3, h4]

/-- A run of the worker from the initial engine: silence until the timeout, a
heartbeat after the reconnect interval, silence again.  The publishes carry
the flags false, true, false. -/
theorem worker_sample_run :
    publishedFlags (worker 10 (initialEngine ⟨0, 0, 0, 0, 0, 0, 0, 0⟩)
      [⟨3000, portWith 0 noCommand, ⟨none, none⟩⟩,
       ⟨3500, portWith 3 ⟨0, 0, 0⟩, ⟨none, none⟩⟩,
       ⟨4000, portWith 3 ⟨0, 0, 0⟩, ⟨none, none⟩⟩,
       ⟨7000, portWith 0 noCommand, ⟨none, none⟩⟩]).2 = [false, true, false] := by
  decide

/-- The receive phase keeps the telemetry struct, the time of the last
transmission and the running flag, and makes no write and no poll. -/
theorem handleCommandReceive_keeps (s : Communication) (port : SerialPortStep) (now : Int) :
    (handleCommandReceive s port now).1.m_TelemetryData = s.m_TelemetryData ∧
    (handleCommandReceive s port now).1.m_LastTelemetryTransmission
      = s.m_LastTelemetryTransmission ∧
    (handleCommandReceive s port now).1.m_ThreadRunning = s.m_ThreadRunning ∧
    writeAttempts (handleCommandReceive s port now).2 = [] := by
  have he : writeAttempts (readStep s port now).events = [] := by
    simp only [readStep]
    split_ifs <;> rfl
  have ha : ∀ c, writeAttempts ((readStep s port now).events ++ [Event.publish c]) = [] := by
    intro c
    simp only [readStep]
    split_ifs <;> rfl
  simp only [handleCommandReceive]
  split_ifs <;> simp [writeAttempts, he, ha]

/-- The transmit phase keeps the two time stamps of the receive phase and the
running flag, and makes no read. -/
theorem handleTelemetryTransmission_keeps_receive (acro : Nat) (s : Communication)
    (port : SerialPortStep) (prov : Providers) (now : Int) :
    (handleTelemetryTransmission acro s port prov now).1.m_LastCommandReceived
      = s.m_LastCommandReceived ∧
    (handleTelemetryTransmission acro s port prov now).1.m_LastReconnectCheck
      = s.m_LastReconnectCheck ∧
    (handleTelemetryTransmission acro s port prov now).1.m_ThreadRunning
      = s.m_ThreadRunning ∧
    readAttempts (handleTelemetryTransmission acro s port prov now).2 = 0 := by
  simp only [handleTelemetryTransmission]
  split_ifs <;> simp [readAttempts]

theorem readAttempts_append (a b : List Event) :
    readAttempts (a ++ b) = readAttempts a + readAttempts b := by
  induction a with
  | nil => simp [readAttempts]
  | cons e es ih =>
    have ih2 : readAttempts (es.append b) = readAttempts es + readAttempts b := ih
    cases e <;> simp only [List.cons_append, readAttempts, ih2]
    omega

theorem writeAttempts_append (a b : List Event) :
    writeAttempts (a ++ b) = writeAttempts a ++ writeAttempts b := by
  induction a with
  | nil => rfl
  | cons e es ih => cases e <;> simp [writeAttempts, ih]

/-- One or two bytes pending: the receive phase does nothing. -/
theorem handleCommandReceive_short (s : Communication) (port : SerialPortStep) (now : Int)
    (ha : port.availableBytes = 1 ∨ port.availableBytes = 2) :
    handleCommandReceive s port now = (s, []) := by
  have h0 : ¬ port.availableBytes ≤ 0 := by omega
  have h3 : ¬ 3 ≤ port.availableBytes := by omega
  have hr : readStep s port now = { lost := false, buffer := noCommand, events := [] } := by
    simp [readStep, CommConstants.COMMAND_SIZE_BYTES, h0, h3]
  cases ht : throttled s now <;> simp [handleCommandReceive, ht, hr]

theorem worker_stopped (acro : Nat) (s : Communication) (inputs : List WorkerInput)
    (h : s.m_ThreadRunning = false) : worker acro s inputs = (s, []) := by
  cases inputs with
  | nil => rfl
  | cons i rest =>
    simp only [worker]
    rw [if_pos h]

theorem worker_cons (acro : Nat) (s : Communication) (i : WorkerInput)
    (rest : List WorkerInput) (h : ¬ s.m_ThreadRunning = false) :
    worker acro s (i :: rest) =
      ((worker acro (workerStep acro s i).1 rest).1,
        (workerStep acro s i).2 ++ (worker acro (workerStep acro s i).1 rest).2) := by
  simp only [worker]
  rw [if_neg h]

/-- A run of the worker in which every iteration sees one or two bytes
pending: no read, no publish, and the connection state, the aggregate and the
two time stamps of the receive phase are those at the start. -/
theorem worker_short : ∀ (acro : Nat) (inputs : List WorkerInput) (s : Communication),
    (∀ i ∈ inputs, i.port.availableBytes = 1 ∨ i.port.availableBytes = 2) →
    (worker acro s inputs).1.m_IsConnected = s.m_IsConnected ∧
    (worker acro s inputs).1.m_CliftonCommand = s.m_CliftonCommand ∧
    (worker acro s inputs).1.m_LastCommandReceived = s.m_LastCommandReceived ∧
    (worker acro s inputs).1.m_LastReconnectCheck = s.m_LastReconnectCheck ∧
    publications (worker acro s inputs).2 = [] ∧
    readAttempts (worker acro s inputs).2 = 0
  | _, [], s, _ => by simp [worker, publications, readAttempts]
  | acro, i :: rest, s, hall => by
    by_cases hrun : s.m_ThreadRunning = false
    · rw [worker_stopped acro s _ hrun]
      exact ⟨rfl, rfl, rfl, rfl, rfl, rfl⟩
    · have hr := handleCommandReceive_short s i.port i.currentSysTime
        (hall i (List.mem_cons_self i rest))
      have hk := handleTelemetryTransmission_keeps acro s i.port i.providers i.currentSysTime
      have hk2 := handleTelemetryTransmission_keeps_receive acro s i.port i.providers
        i.currentSysTime
      have hs : workerStep acro s i
          = handleTelemetryTransmission acro s i.port i.providers i.currentSysTime := by
        simp [workerStep, hr]
      have ih := worker_short acro rest (workerStep acro s i).1
        (fun j hj => hall j (List.mem_cons_of_mem i hj))
      rw [worker_cons acro s i rest hrun]
      rw [hs] at ih ⊢
      obtain ⟨i1, i2, i3, i4, i5, i6⟩ := ih
      refine ⟨i1.trans hk.2.1, i2.trans hk.2.2, i3.trans hk2.1, i4.trans hk2.2.1, ?_, ?_⟩
      · rw [publications_append, hk.1, i5]
        rfl
      · rw [readAttempts_append, hk2.2.2.2, i6]

theorem worker_append_fst (acro : Nat) : ∀ (a b : List WorkerInput) (s : Communication),
    (worker acro s (a ++ b)).1 = (worker acro (worker acro s a).1 b).1
  | [], _, _ => rfl
  | i :: a, b, s => by
    by_cases hrun : s.m_ThreadRunning = false
    · rw [worker_stopped acro s _ hrun, worker_stopped acro s _ hrun,
        worker_stopped acro s _ hrun]
    · rw [List.cons_append, worker_cons acro s i _ hrun, worker_cons acro s i _ hrun]
      exact worker_append_fst acro a b (workerStep acro s i).1

theorem setIsAutonomous_div (p : Nat) (v : Bool) : setIsAutonomous p v / 2 = p / 2 := by
  simp only [setIsAutonomous]
  split_ifs <;> omega

/-- One iteration keeps bits 1 to 7 of the status byte, in the struct it
holds and in a struct it writes. -/
theorem workerStep_status (acro : Nat) (s : Communication) (i : WorkerInput) :
    (workerStep acro s i).1.m_TelemetryData.statusInfo / 2
      = s.m_TelemetryData.statusInfo / 2 ∧
    ∀ d ∈ writeAttempts (workerStep acro s i).2,
      d.statusInfo / 2 = s.m_TelemetryData.statusInfo / 2 := by
  have hk := handleCommandReceive_keeps s i.port i.currentSysTime
  have hp : ∀ t : TelemetryData,
      (vehicleStatusPoll acro i.providers.vehicleStatus
        (sensordataPoll i.providers.sensordaten t)).statusInfo / 2 = t.statusInfo / 2 := by
    intro t
    cases hv : i.providers.vehicleStatus <;> cases hd : i.providers.sensordaten <;>
      simp [vehicleStatusPoll, sensordataPoll, setIsAutonomous_div]
  simp only [workerStep, writeAttempts_append, hk.2.2.2, List.nil_append]
  rw [← hk.1]
  simp only [handleTelemetryTransmission]
  split_ifs <;> simp [writeAttempts, hp]

theorem worker_status (acro : Nat) : ∀ (inputs : List WorkerInput) (s : Communication),
    (worker acro s inputs).1.m_TelemetryData.statusInfo / 2
      = s.m_TelemetryData.statusInfo / 2 ∧
    ∀ d ∈ writeAttempts (worker acro s inputs).2,
      d.statusInfo / 2 = s.m_TelemetryData.statusInfo / 2
  | [], s => by simp [worker, writeAttempts]
  | i :: rest, s => by
    by_cases hrun : s.m_ThreadRunning = false
    · rw [worker_stopped acro s _ hrun]
      simp [writeAttempts]
    · rw [worker_cons acro s i rest hrun]
      have h1 := workerStep_status acro s i
      have ih := worker_status acro rest (workerStep acro s i).1
      refine ⟨ih.1.trans h1.1, fun d hd => ?_⟩
      rw [writeAttempts_append, List.mem_append] at hd
      rcases hd with hd | hd
      · exact h1.2 d hd
      · exact (ih.2 d hd).trans h1.1

/-- The publishes of one receive phase and the aggregate: either nothing is
published and the connection state and the aggregate are kept, or what is
published is the aggregate afterwards, whose flag is the connection state
afterwards. -/
theorem handleCommandReceive_sync (s : Communication) (port : SerialPortStep) (now : Int) :
    (publications (handleCommandReceive s port now).2 = [] ∧
      (handleCommandReceive s port now).1.m_IsConnected = s.m_IsConnected ∧
      (handleCommandReceive s port now).1.m_CliftonCommand = s.m_CliftonCommand) ∨
    (publications (handleCommandReceive s port now).2
        = [(handleCommandReceive s port now).1.m_CliftonCommand] ∧
      (handleCommandReceive s port now).1.m_CliftonCommand.is_sail_agent_connected
        = (handleCommandReceive s port now).1.m_IsConnected) := by
  cases ht : throttled s now
  · cases hl : (readStep s port now).lost
    · by_cases hb : (readStep s port now).buffer = noCommand
      · left
        simp [handleCommandReceive, ht, hl, hb, readStep_publications]
      · right
        cases hc : s.m_IsConnected <;>
          simp [handleCommandReceive, ht, hl, hb, hc, publications_append,
            readStep_publications, publications, fillCommand_connected]
    · cases hc : s.m_IsConnected
      · left
        simp [handleCommandReceive, ht, hl, hc, readStep_publications]
      · right
        simp [handleCommandReceive, ht, hl, hc, publications_append,
          readStep_publications, publications]
  · left
    simp [handleCommandReceive, ht, publications]

theorem workerStep_sync (acro : Nat) (s : Communication) (i : WorkerInput) :
    (publications (workerStep acro s i).2 = [] ∧
      (workerStep acro s i).1.m_IsConnected = s.m_IsConnected ∧
      (workerStep acro s i).1.m_CliftonCommand = s.m_CliftonCommand) ∨
    (publications (workerStep acro s i).2 = [(workerStep acro s i).1.m_CliftonCommand] ∧
      (workerStep acro s i).1.m_CliftonCommand.is_sail_agent_connected
        = (workerStep acro s i).1.m_IsConnected) := by
  have ht := handleTelemetryTransmission_keeps acro
    (handleCommandReceive s i.port i.currentSysTime).1 i.port i.providers i.currentSysTime
  have hp : publications (workerStep acro s i).2
      = publications (handleCommandReceive s i.port i.currentSysTime).2 := by
    simp [workerStep, publications_append, ht.1]
  have hc : (workerStep acro s i).1.m_IsConnected
      = (handleCommandReceive s i.port i.currentSysTime).1.m_IsConnected := by
    simp [workerStep, ht.2.1]
  have ha : (workerStep acro s i).1.m_CliftonCommand
      = (handleCommandReceive s i.port i.currentSysTime).1.m_CliftonCommand := by
    simp [workerStep, ht.2.2]
  rw [hp, hc, ha]
  exact handleCommandReceive_sync s i.port i.currentSysTime

/-- Once the worker has published, the flag of the aggregate is the
connection state. -/
theorem worker_sync (acro : Nat) : ∀ (inputs : List WorkerInput) (s : Communication),
    (publications (worker acro s inputs).2 ≠ [] ∨
      s.m_CliftonCommand.is_sail_agent_connected = s.m_IsConnected) →
    (worker acro s inputs).1.m_CliftonCommand.is_sail_agent_connected
      = (worker acro s inputs).1.m_IsConnected
  | [], s, h => by
    rcases h with h | h
    · exact absurd rfl h
    · exact h
  | i :: rest, s, h => by
    by_cases hrun : s.m_ThreadRunning = false
    · rw [worker_stopped acro s _ hrun] at h ⊢
      rcases h with h | h
      · exact absurd rfl h
      · exact h
    · rw [worker_cons acro s i rest hrun] at h ⊢
      rcases workerStep_sync acro s i with ⟨h1, h2, h3⟩ | ⟨_, h2⟩
      · refine worker_sync acro rest (workerStep acro s i).1 ?_
        rcases h with h | h
        · left
          simpa [publications_append, h1] using h
        · right
          rw [h2, h3]
          exact h
      · exact worker_sync acro rest (workerStep acro s i).1 (Or.inr h2)

/-- The time stamps after one iteration: each is what it was or the time of
the iteration. -/
theorem workerStep_timestamps (acro : Nat) (s : Communication) (i : WorkerInput) :
    ((workerStep acro s i).1.m_LastCommandReceived = s.m_LastCommandReceived ∨
      (workerStep acro s i).1.m_LastCommandReceived = i.currentSysTime) ∧
    ((workerStep acro s i).1.m_LastTelemetryTransmission = s.m_LastTelemetryTransmission ∨
      (workerStep acro s i).1.m_LastTelemetryTransmission = i.currentSysTime) ∧
    ((workerStep acro s i).1.m_LastReconnectCheck = s.m_LastReconnectCheck ∨
      (workerStep acro s i).1.m_LastReconnectCheck = i.currentSysTime) := by
  have hr : ((handleCommandReceive s i.port i.currentSysTime).1.m_LastCommandReceived
        = s.m_LastCommandReceived ∨
      (handleCommandReceive s i.port i.currentSysTime).1.m_LastCommandReceived
        = i.currentSysTime) ∧
      ((handleCommandReceive s i.port i.currentSysTime).1.m_LastReconnectCheck
        = s.m_LastReconnectCheck ∨
      (handleCommandReceive s i.port i.currentSysTime).1.m_LastReconnectCheck
        = i.currentSysTime) := by
    simp only [handleCommandReceive]
    split_ifs <;> simp
  have hk := handleCommandReceive_keeps s i.port i.currentSysTime
  have hk2 := handleTelemetryTransmission_keeps_receive acro
    (handleCommandReceive s i.port i.currentSysTime).1 i.port i.providers i.currentSysTime
  have ht : (handleTelemetryTransmission acro (handleCommandReceive s i.port
        i.currentSysTime).1 i.port i.providers i.currentSysTime).1.m_LastTelemetryTransmission
        = (handleCommandReceive s i.port i.currentSysTime).1.m_LastTelemetryTransmission ∨
      (handleTelemetryTransmission acro (handleCommandReceive s i.port
        i.currentSysTime).1 i.port i.providers i.currentSysTime).1.m_LastTelemetryTransmission
        = i.currentSysTime := by
    simp only [handleTelemetryTransmission]
    split_ifs <;> simp
  simp only [workerStep]
  rw [hk2.1, hk2.2.1]
  rw [hk.2.1] at ht
  exact ⟨hr.1, ht, hr.2⟩

/-- A bound on the times of the iterations and on the time stamps at the
start is a bound on the time stamps at the end. -/
theorem worker_timestamps_le (acro : Nat) (B : Int) :
    ∀ (inputs : List WorkerInput) (s : Communication),
    (∀ j ∈ inputs, j.currentSysTime ≤ B) →
    s.m_LastCommandReceived ≤ B → s.m_LastTelemetryTransmission ≤ B →
    s.m_LastReconnectCheck ≤ B →
    (worker acro s inputs).1.m_LastCommandReceived ≤ B ∧
    (worker acro s inputs).1.m_LastTelemetryTransmission ≤ B ∧
    (worker acro s inputs).1.m_LastReconnectCheck ≤ B
  | [], _, _, h1, h2, h3 => ⟨h1, h2, h3⟩
  | i :: rest, s, hall, h1, h2, h3 => by
    by_cases hrun : s.m_ThreadRunning = false
    · rw [worker_stopped acro s _ hrun]
      exact ⟨h1, h2, h3⟩
    · rw [worker_cons acro s i rest hrun]
      have hi := hall i (List.mem_cons_self i rest)
      obtain ⟨t1, t2, t3⟩ := workerStep_timestamps acro s i
      exact worker_timestamps_le acro B rest (workerStep acro s i).1
        (fun j hj => hall j (List.mem_cons_of_mem i hj))
        (by rcases t1 with t | t <;> rw [t] <;> assumption)
        (by rcases t2 with t | t <;> rw [t] <;> assumption)
        (by rcases t3 with t | t <;> rw [t] <;> assumption)

theorem readUInt16_bytes16 (n : Nat) (h : n < 65536) :
    readUInt16 (byteOf n) (byteOf (n / 256)) = n := by
  simp only [readUInt16, byteOf]
  omega

theorem readInt16_bytes16 (x : Int) (h1 : -32768 ≤ x) (h2 : x ≤ 32767) :
    readInt16 (byteOf (toUInt16 x)) (byteOf (toUInt16 x / 256)) = x := by
  have hu : toUInt16 x < 65536 := by
    simp only [toUInt16]
    omega
  simp only [readInt16, readUInt16_bytes16 _ hu]
  simp only [toUInt16]
  split_ifs <;> omega

theorem writeLoop_eq_readLoop (size : Nat) : ∀ (results : List Int) (b : Nat),
    SerialPort.writeLoop size results b = SerialPort.readLoop size results b
  | [], b => rfl
  | r :: rest, b => by
    simp only [SerialPort.writeLoop, SerialPort.readLoop]
    rw [writeLoop_eq_readLoop size rest]

theorem readLoop_false_iff (size : Nat) : ∀ (results : List Int) (b : Nat),
    (SerialPort.readLoop size results b).returned = some false ↔
      ∃ (before : List Int) (r : Int) (after : List Int),
        results = before ++ r :: after ∧ r < 0 ∧ (∀ x ∈ before, 0 ≤ x) ∧
        b + accumulated before < size
  | [], b => by
    simp only [SerialPort.readLoop]
    constructor
    · intro h
      split_ifs at h
      cases h
    · rintro ⟨before, r, after, he, _⟩
      simp at he
  | r0 :: rest, b => by
    simp only [SerialPort.readLoop]
    by_cases hb : b < size
    · by_cases hr : r0 < 0
      · simp only [hb, hr, if_true, true_iff]
        exact ⟨[], r0, rest, rfl, hr, by simp, by simpa [accumulated] using hb⟩
      · simp only [hb, hr, if_true, if_false]
        rw [readLoop_false_iff size rest (b + r0.toNat)]
        constructor
        · rintro ⟨before, r, after, he, hn, hall, hs⟩
          refine ⟨r0 :: before, r, after, by rw [he]; rfl, hn, ?_, ?_⟩
          · intro x hx
            rcases List.mem_cons.1 hx with h | h
            · rw [h]; omega
            · exact hall x h
          · simp only [accumulated, List.map_cons, List.sum_cons] at hs ⊢
            omega
        · rintro ⟨before, r, after, he, hn, hall, hs⟩
          cases before with
          | nil =>
            simp only [List.nil_append, List.cons.injEq] at he
            rw [he.1] at hr
            exact absurd hn hr
          | cons x before =>
            simp only [List.cons_append, List.cons.injEq] at he
            refine ⟨before, r, after, he.2, hn, fun y hy => hall y (List.mem_cons_of_mem _ hy),
              ?_⟩
            simp only [accumulated, List.map_cons, List.sum_cons] at hs ⊢
            rw [he.1]
            omega
    · simp only [hb, if_false]
      constructor
      · intro h
        cases h
      · rintro ⟨before, r, after, _, _, _, hs⟩
        omega

theorem readLoop_true_iff (size : Nat) : ∀ (results : List Int) (b : Nat),
    (SerialPort.readLoop size results b).returned = some true ↔
      ∃ (before after : List Int),
        results = before ++ after ∧ (∀ x ∈ before, 0 ≤ x) ∧
        size ≤ b + accumulated before
  | [], b => by
    simp only [SerialPort.readLoop]
    constructor
    · intro h
      split_ifs at h with hb
      exact ⟨[], [], rfl, by simp, by simpa [accumulated] using hb⟩
    · rintro ⟨before, after, he, _, hs⟩
      have hb : before = [] := by
        cases before with
        | nil => rfl
        | cons x l => simp at he
      rw [hb] at hs
      simp only [accumulated, List.map_nil, List.sum_nil, Nat.add_zero] at hs
      have : ¬ b < size := by omega
      simp [this]
  | r0 :: rest, b => by
    simp only [SerialPort.readLoop]
    by_cases hb : b < size
    · by_cases hr : r0 < 0
      · simp only [hb, hr, if_true]
        constructor
        · intro h
          cases h
        · rintro ⟨before, after, he, hall, hs⟩
          cases before with
          | nil =>
            simp only [accumulated, List.map_nil, List.sum_nil, Nat.add_zero] at hs
            omega
          | cons x before =>
            simp only [List.cons_append, List.cons.injEq] at he
            have := hall x (List.mem_cons_self _ _)
            rw [← he.1] at this
            omega
      · simp only [hb, hr, if_true, if_false]
        rw [readLoop_true_iff size rest (b + r0.toNat)]
        constructor
        · rintro ⟨before, after, he, hall, hs⟩
          refine ⟨r0 :: before, after, by rw [he]; rfl, ?_, ?_⟩
          · intro x hx
            rcases List.mem_cons.1 hx with h | h
            · rw [h]; omega
            · exact hall x h
          · simp only [accumulated, List.map_cons, List.sum_cons] at hs ⊢
            omega
        · rintro ⟨before, after, he, hall, hs⟩
          cases before with
          | nil =>
            simp only [accumulated, List.map_nil, List.sum_nil, Nat.add_zero] at hs
            omega
          | cons x before =>
            simp only [List.cons_append, List.cons.injEq] at he
            refine ⟨before, after, he.2, fun y hy => hall y (List.mem_cons_of_mem _ hy), ?_⟩
            simp only [accumulated, List.map_cons, List.sum_cons] at hs ⊢
            rw [he.1]
            omega
    · simp only [hb, if_false, true_iff]
      refine ⟨[], r0 :: rest, rfl, by simp, ?_⟩
      simp only [accumulated, List.map_nil, List.sum_nil]
      omega

theorem readLoop_bytes_le (size : Nat) : ∀ (results : List Int) (b : Nat),
    withinRequest size results b = true → b ≤ size →
    (SerialPort.readLoop size results b).bytes ≤ size
  | [], b, _, hb => by
    simp only [SerialPort.readLoop]
    split_ifs <;> exact hb
  | r0 :: rest, b, hw, hb => by
    simp only [SerialPort.readLoop]
    by_cases hlt : b < size
    · by_cases hr : r0 < 0
      · simp only [hlt, hr, if_true]
        exact hb
      · simp only [hlt, hr, if_true, if_false]
        have hn : ¬ size ≤ b := by omega
        simp only [withinRequest, hn, hr, decide_False, Bool.false_or, Bool.and_eq_true,
          decide_eq_true_eq] at hw
        exact readLoop_bytes_le size rest (b + r0.toNat) hw.2 (by omega)
    · simp only [hlt, if_false]
      exact hb

theorem readLoop_true_ge (size : Nat) : ∀ (results : List Int) (b : Nat),
    (SerialPort.readLoop size results b).returned = some true →
    size ≤ (SerialPort.readLoop size results b).bytes
  | [], b => by
    simp only [SerialPort.readLoop]
    split_ifs with hb
    · intro h
      cases h
    · intro _
      exact Nat.le_of_not_lt hb
  | r0 :: rest, b => by
    simp only [SerialPort.readLoop]
    split_ifs with hb hr
    · intro h
      cases h
    · exact readLoop_true_ge size rest (b + r0.toNat)
    · intro _
      exact Nat.le_of_not_lt hb

theorem readLoop_returns (size : Nat) : ∀ (results : List Int) (b : Nat),
    (∀ x ∈ results, x ≠ 0) → size ≤ b + results.length →
    (SerialPort.readLoop size results b).returned ≠ none
  | [], b, _, hl => by
    have hb : ¬ b < size := by simpa using hl
    simp [SerialPort.readLoop, hb]
  | r0 :: rest, b, hall, hl => by
    simp only [SerialPort.readLoop]
    split_ifs with hb hr
    · simp
    · have h0 := hall r0 (List.mem_cons_self _ _)
      refine readLoop_returns size rest (b + r0.toNat)
        (fun x hx => hall x (List.mem_cons_of_mem _ hx)) ?_
      simp only [List.length_cons] at hl
      omega
    · simp

/-- A `read` that keeps returning 0 keeps the loop of `readData` running. -/
theorem readLoop_zeros (size : Nat) (hs : 0 < size) : ∀ (k : Nat),
    SerialPort.readData size (List.replicate k 0) = ⟨none, 0⟩
  | 0 => by simp [SerialPort.readData, SerialPort.readLoop, hs]
  | k + 1 => by
    have ih := readLoop_zeros size hs k
    simp only [SerialPort.readData] at ih
    simp [SerialPort.readData, List.replicate_succ, SerialPort.readLoop, hs, ih]

theorem readData_exactLength (size : Nat) (results : List Int)
    (h : withinRequest size results 0 = true) :
    ExactLength SerialPort.readData size results := by
  refine ⟨?_, ?_, ?_, ?_, ?_⟩
  · simpa using readLoop_false_iff size results 0
  · simpa using readLoop_true_iff size results 0
  · exact readLoop_bytes_le size results 0 h (Nat.zero_le _)
  · intro ht
    exact Nat.le_antisymm (readLoop_bytes_le size results 0 h (Nat.zero_le _))
      (readLoop_true_ge size results 0 ht)
  · intro hall hl
    exact readLoop_returns size results 0 hall (by omega)

/-! ## The receive phase -/

/-- C1.  Loss transition: from state Connected, when no byte is available and
at least 3000 ms passed since the last command, or when at least 3 bytes are
available and the read fails, the receive phase ends Disconnected, the
aggregate has `is_sail_agent_connected = false` and is published exactly once,
`m_LastReconnectCheck` is the current time, and `course`, `is_stop_route` and
`m_LastCommandReceived` keep their values. -/
theorem handleCommandReceive_loss (s : Communication) (port : SerialPortStep)
    (now : Int) (hc : s.m_IsConnected = true)
    (h : (port.availableBytes ≤ 0 ∧ now - s.m_LastCommandReceived ≥ 3000) ∨
      (port.availableBytes ≥ 3 ∧ port.readData.ok = false)) :
    (handleCommandReceive s port now).1.m_IsConnected = false ∧
    (handleCommandReceive s port now).1.m_CliftonCommand.is_sail_agent_connected = false ∧
    publications (handleCommandReceive s port now).2
      = [(handleCommandReceive s port now).1.m_CliftonCommand] ∧
    (handleCommandReceive s port now).1.m_LastReconnectCheck = now ∧
    (handleCommandReceive s port now).1.m_CliftonCommand.course
      = s.m_CliftonCommand.course ∧
    (handleCommandReceive s port now).1.m_CliftonCommand.is_stop_route
      = s.m_CliftonCommand.is_stop_route ∧
    (handleCommandReceive s port now).1.m_LastCommandReceived
      = s.m_LastCommandReceived := by
  have ht : throttled s now = false := by simp [throttled, hc]
  have hl : (readStep s port now).lost = true := by
    unfold readStep
    rcases h with ⟨h1, h2⟩ | ⟨h1, h2⟩
    · simp [CommConstants.CONNECTION_LOST_TIMEOUT, h1, h2]
    · have h3 : ¬ port.availableBytes ≤ 0 := by omega
      simp [CommConstants.COMMAND_SIZE_BYTES, h1, h2, h3]
  simp [handleCommandReceive, ht, hl, hc, publications_append, readStep_publications,
    publications]

/-- C1, at a value: silence of exactly 3000 ms with nothing pending. -/
theorem handleCommandReceive_loss_witness :
    (handleCommandReceive sampleConnected (portWith 0 noCommand) 3000).1.m_IsConnected
      = false ∧
    publications (handleCommandReceive sampleConnected (portWith 0 noCommand) 3000).2
      = [(handleCommandReceive sampleConnected (portWith 0 noCommand) 3000).1.m_CliftonCommand] ∧
    (handleCommandReceive sampleConnected (portWith 0 noCommand) 3000).1.m_LastReconnectCheck
      = 3000 :=
  have h := handleCommandReceive_loss sampleConnected (portWith 0 noCommand) 3000
    (by decide) (Or.inl (by decide))
  ⟨h.1, h.2.2.1, h.2.2.2.1⟩

/-- C2, as stated, fails: a Disconnected engine that reads the three bytes
0xDE 0xAD 0xBE stays Disconnected and publishes nothing. -/
theorem reconnect_read_of_pattern :
    sampleDisconnected.m_IsConnected = false ∧
    (portWith 3 noCommand).readData = ⟨true, noCommand⟩ ∧
    readAttempts (handleCommandReceive sampleDisconnected (portWith 3 noCommand) 1000).2 = 1 ∧
    (handleCommandReceive sampleDisconnected (portWith 3 noCommand) 1000).1.m_IsConnected
      = false ∧
    publications (handleCommandReceive sampleDisconnected (portWith 3 noCommand) 1000).2
      = [] := by
  decide

/-- C2, amended.  From state Disconnected, when at least 1000 ms passed since
the last reconnect check, at least 3 bytes are available and the read succeeds
with a frame other than 0xDE 0xAD 0xBE (whatever its command id), the receive
phase performs the read, ends Connected and publishes the aggregate once, with
`is_sail_agent_connected = true`. -/
theorem handleCommandReceive_reconnect (s : Communication) (port : SerialPortStep)
    (now : Int) (f : Frame) (hd : s.m_IsConnected = false)
    (hi : 1000 ≤ now - s.m_LastReconnectCheck) (ha : 3 ≤ port.availableBytes)
    (hr : port.readData = ⟨true, f⟩) (hf : f ≠ noCommand) :
    readAttempts (handleCommandReceive s port now).2 = 1 ∧
    (handleCommandReceive s port now).1.m_IsConnected = true ∧
    publications (handleCommandReceive s port now).2
      = [(handleCommandReceive s port now).1.m_CliftonCommand] ∧
    (handleCommandReceive s port now).1.m_CliftonCommand.is_sail_agent_connected
      = true := by
  have ht : throttled s now = false := by
    simp [throttled, hd, CommConstants.RECONNECT_INTERVAL]; omega
  rw [handleCommandReceive_dispatch s port now f ht ha hr hf]
  refine ⟨rfl, rfl, rfl, ?_⟩
  simp only [fillCommand]
  split_ifs <;> rfl

/-- C2 amended, at a value: a frame with the unknown command id 9. -/
theorem handleCommandReceive_reconnect_witness :
    (handleCommandReceive sampleDisconnected (portWith 3 ⟨9, 0, 0⟩) 1000).1.m_IsConnected
      = true ∧
    (handleCommandReceive sampleDisconnected
      (portWith 3 ⟨9, 0, 0⟩) 1000).1.m_CliftonCommand.is_sail_agent_connected = true :=
  have h := handleCommandReceive_reconnect sampleDisconnected (portWith 3 ⟨9, 0, 0⟩) 1000
    ⟨9, 0, 0⟩ (by decide) (by decide) (by decide) rfl (by decide)
  ⟨h.2.1, h.2.2.2⟩

/-- C3, as stated, fails: with nothing pending no read is attempted and the
buffer keeps the bytes 0xDE 0xAD 0xBE, yet after 3000 ms of silence a
Connected engine becomes Disconnected, publishes, and sets
`m_LastReconnectCheck`. -/
theorem pattern_in_buffer_at_timeout :
    readAttempts (handleCommandReceive sampleConnected (portWith 0 noCommand) 3000).2 = 0 ∧
    (readStep sampleConnected (portWith 0 noCommand) 3000).buffer = ⟨0xDE, 0xAD, 0xBE⟩ ∧
    publications (handleCommandReceive sampleConnected (portWith 0 noCommand) 3000).2
      ≠ [] ∧
    sampleConnected.m_IsConnected = true ∧
    (handleCommandReceive sampleConnected (portWith 0 noCommand) 3000).1.m_IsConnected
      = false ∧
    sampleConnected.m_LastReconnectCheck = 0 ∧
    (handleCommandReceive sampleConnected (portWith 0 noCommand) 3000).1.m_LastReconnectCheck
      = 3000 := by
  decide

/-- C3, amended.  When the receive phase is throttled, or when the condition
of the loss branch is false and the buffer then holds the bytes
0xDE 0xAD 0xBE (no read was attempted, or these bytes were read), the phase
publishes nothing and leaves the whole engine, so the connection state, the
aggregate and the three time stamps, unchanged. -/
theorem handleCommandReceive_noCommand (s : Communication) (port : SerialPortStep)
    (now : Int)
    (h : throttled s now = true ∨
      ((readStep s port now).lost = false ∧
        (readStep s port now).buffer = ⟨0xDE, 0xAD, 0xBE⟩)) :
    (handleCommandReceive s port now).1 = s ∧
    publications (handleCommandReceive s port now).2 = [] := by
  rcases h with h | ⟨hl, hb⟩
  · simp [handleCommandReceive, h, publications]
  · cases ht : throttled s now
    · have hb2 : (readStep s port now).buffer = noCommand := hb
      simp [handleCommandReceive, ht, hl, hb2, readStep_publications]
    · simp [handleCommandReceive, ht, publications]

/-- C3 amended, at a value: the bytes 0xDE 0xAD 0xBE are read from the
link. -/
theorem handleCommandReceive_noCommand_witness :
    (handleCommandReceive sampleConnected (portWith 3 noCommand) 5000).1 = sampleConnected ∧
    publications (handleCommandReceive sampleConnected (portWith 3 noCommand) 5000).2 = [] :=
  handleCommandReceive_noCommand sampleConnected (portWith 3 noCommand) 5000
    (Or.inr ⟨by decide, by decide⟩)

/-- C4.  Reconnect throttle: from state Disconnected, less than 1000 ms after
the last reconnect check, the receive phase makes no call at all (no read, no
publish) and leaves the whole engine unchanged, whatever the number of
available bytes. -/
theorem handleCommandReceive_throttle (s : Communication) (port : SerialPortStep)
    (now : Int) (hd : s.m_IsConnected = false)
    (h : now - s.m_LastReconnectCheck < 1000) :
    (handleCommandReceive s port now).2 = [] ∧
    readAttempts (handleCommandReceive s port now).2 = 0 ∧
    publications (handleCommandReceive s port now).2 = [] ∧
    (handleCommandReceive s port now).1 = s := by
  have ht : throttled s now = true := by
    simp [throttled, hd, CommConstants.RECONNECT_INTERVAL, h]
  simp [handleCommandReceive, ht, readAttempts, publications]

/-- C4, at a value: 999 ms after the last check, with a frame pending. -/
theorem handleCommandReceive_throttle_witness :
    (handleCommandReceive sampleDisconnected (portWith 3 ⟨0, 0, 0⟩) 999).2 = [] ∧
    (handleCommandReceive sampleDisconnected (portWith 3 ⟨0, 0, 0⟩) 999).1
      = sampleDisconnected :=
  have h := handleCommandReceive_throttle sampleDisconnected (portWith 3 ⟨0, 0, 0⟩) 999
    (by decide) (by decide)
  ⟨h.1, h.2.2.2⟩

/-- C5.  Edge-triggered disconnect notification: a receive phase publishes
an aggregate with `is_sail_agent_connected = false` only when it starts in
state Connected (so never when it starts Disconnected), the transmit phase
publishes nothing, and in the publishes of every run of the worker from the
initial engine two aggregates with `is_sail_agent_connected = false` are
separated by one with `is_sail_agent_connected = true`. -/
theorem disconnect_publish_edge_triggered (acro : Nat) (garbage : TelemetryData)
    (inputs : List WorkerInput) :
    (∀ (s : Communication) (port : SerialPortStep) (now : Int) (c : CliftonCommand),
      c ∈ publications (handleCommandReceive s port now).2 →
      c.is_sail_agent_connected = false → s.m_IsConnected = true) ∧
    (∀ (s : Communication) (port : SerialPortStep) (prov : Providers) (now : Int),
      publications (handleTelemetryTransmission acro s port prov now).2 = []) ∧
    Separated (publishedFlags (worker acro (initialEngine garbage) inputs).2) := by
  refine ⟨?_, fun s port prov now =>
    (handleTelemetryTransmission_keeps acro s port prov now).1,
    (worker_flags acro inputs (initialEngine garbage)).1⟩
  intro s port now c hc hf
  have hm : false ∈ publishedFlags (handleCommandReceive s port now).2 := by
    rw [← hf]
    exact List.mem_map_of_mem (fun c => c.is_sail_agent_connected) hc
  rcases handleCommandReceive_flags s port now with ⟨h1, _⟩ | ⟨_, h2, _⟩ | ⟨h1, _⟩
  · rw [h1] at hm
    simp at hm
  · exact h2
  · rw [h1] at hm
    simp at hm

/-- C6.  SetCourse decoding: when the receive phase is not throttled, at
least 3 bytes are available and the read succeeds with the frame
`[0x03, b1, b2]`, the course afterwards is `b1 + 256 * b2`,
`m_LastCommandReceived` is the current time, `is_stop_route` keeps its value
and the aggregate is published exactly once. -/
theorem handleCommandReceive_setCourse (s : Communication) (port : SerialPortStep)
    (now : Int) (b1 b2 : Byte) (ht : throttled s now = false)
    (ha : 3 ≤ port.availableBytes) (hr : port.readData = ⟨true, ⟨3, b1, b2⟩⟩) :
    (handleCommandReceive s port now).1.m_CliftonCommand.course = b1.val + 256 * b2.val ∧
    (handleCommandReceive s port now).1.m_LastCommandReceived = now ∧
    (handleCommandReceive s port now).1.m_CliftonCommand.is_stop_route
      = s.m_CliftonCommand.is_stop_route ∧
    publications (handleCommandReceive s port now).2
      = [(handleCommandReceive s port now).1.m_CliftonCommand] := by
  have hf : (⟨3, b1, b2⟩ : Frame) ≠ noCommand :=
    ne_noCommand_of_id _ (by show (3 : Byte).val ≠ 0xDE; decide)
  rw [handleCommandReceive_dispatch s port now ⟨3, b1, b2⟩ ht ha hr hf,
    fillCommand_setCourse _ _ rfl]
  exact ⟨rfl, rfl, rfl, rfl⟩

/-- C6, at a value: the frame `[0x03, 0x2C, 0x01]` gives the course 300. -/
theorem handleCommandReceive_setCourse_witness :
    (handleCommandReceive sampleConnected
      (portWith 3 ⟨0x03, 0x2C, 0x01⟩) 42).1.m_CliftonCommand.course = 300 ∧
    (handleCommandReceive sampleConnected
      (portWith 3 ⟨0x03, 0x2C, 0x01⟩) 42).1.m_LastCommandReceived = 42 :=
  have h := handleCommandReceive_setCourse sampleConnected (portWith 3 ⟨0x03, 0x2C, 0x01⟩) 42
    0x2C 0x01 (by decide) (by decide) rfl
  ⟨h.1, h.2.1⟩

/-- C7.  Last writer wins: over a non-empty run of receive phases, the first
of them not throttled, each reading a `HEARTBEAT` (id 0) or a `SET_COURSE`
(id 3) frame, with at least one `SET_COURSE` frame, the course at the end is
the parameter of the last `SET_COURSE` frame, whatever the engine at the
start. -/
theorem course_last_writer_wins (s : Communication) (inputs : List ReceiveInput) (p : Nat)
    (ht : ∀ i, inputs.head? = some i → throttled s i.currentSysTime = false)
    (hall : ∀ i ∈ inputs, 3 ≤ i.port.availableBytes ∧ i.port.readData.ok = true ∧
      (i.port.readData.buffer.b0.val = 0 ∨ i.port.readData.buffer.b0.val = 3))
    (hlast : lastSetCourse (inputs.map (fun i => i.port.readData.buffer)) = some p) :
    inputs ≠ [] ∧ (receivePhases s inputs).m_CliftonCommand.course = p := by
  refine ⟨?_, ?_⟩
  · intro he
    rw [he] at hlast
    simp [lastSetCourse] at hlast
  · rw [receivePhases_course inputs s ht hall, hlast]
    rfl

/-- C7, at a value: SetCourse 300, Heartbeat, SetCourse 7, Heartbeat. -/
theorem course_last_writer_wins_witness :
    (receivePhases sampleConnected
      [⟨1, portWith 3 ⟨3, 0x2C, 1⟩⟩, ⟨2, portWith 3 ⟨0, 0, 0⟩⟩,
       ⟨3, portWith 3 ⟨3, 7, 0⟩⟩, ⟨4, portWith 3 ⟨0, 9, 9⟩⟩]).m_CliftonCommand.course = 7 :=
  (course_last_writer_wins sampleConnected
    [⟨1, portWith 3 ⟨3, 0x2C, 1⟩⟩, ⟨2, portWith 3 ⟨0, 0, 0⟩⟩,
     ⟨3, portWith 3 ⟨3, 7, 0⟩⟩, ⟨4, portWith 3 ⟨0, 9, 9⟩⟩] 7
    (by decide) (by decide) (by decide)).2

/-- C8.  Route flag algebra: over two receive phases in a row, the first not
throttled, that read the frames `fa` then `fb`, each a `START_ROUTE` (id 1) or
a `STOP_ROUTE` (id 2) frame with any parameter bytes: start then stop leaves
`is_stop_route = true`, stop then start leaves it `false`, the same command
twice leaves what the first phase left, and the course keeps its value. -/
theorem route_flag_algebra (s : Communication) (pa pb : SerialPortStep) (ta tb : Int)
    (fa fb : Frame) (ht : throttled s ta = false)
    (ha : 3 ≤ pa.availableBytes) (hb : 3 ≤ pb.availableBytes)
    (hra : pa.readData = ⟨true, fa⟩) (hrb : pb.readData = ⟨true, fb⟩)
    (hida : fa.b0.val = 1 ∨ fa.b0.val = 2) (hidb : fb.b0.val = 1 ∨ fb.b0.val = 2) :
    (fa.b0.val = 1 → fb.b0.val = 2 →
      (receivePhases s [⟨ta, pa⟩, ⟨tb, pb⟩]).m_CliftonCommand.is_stop_route = true) ∧
    (fa.b0.val = 2 → fb.b0.val = 1 →
      (receivePhases s [⟨ta, pa⟩, ⟨tb, pb⟩]).m_CliftonCommand.is_stop_route = false) ∧
    (fa.b0.val = fb.b0.val →
      (receivePhases s [⟨ta, pa⟩, ⟨tb, pb⟩]).m_CliftonCommand.is_stop_route
        = (receivePhases s [⟨ta, pa⟩]).m_CliftonCommand.is_stop_route) ∧
    (receivePhases s [⟨ta, pa⟩]).m_CliftonCommand.course = s.m_CliftonCommand.course ∧
    (receivePhases s [⟨ta, pa⟩, ⟨tb, pb⟩]).m_CliftonCommand.course
      = s.m_CliftonCommand.course := by
  have hfa : fa ≠ noCommand :=
    ne_noCommand_of_id _ (by rcases hida with h | h <;> rw [h] <;> decide)
  have hfb : fb ≠ noCommand :=
    ne_noCommand_of_id _ (by rcases hidb with h | h <;> rw [h] <;> decide)
  have h1 := handleCommandReceive_dispatch s pa ta fa ht ha hra hfa
  have h2 := handleCommandReceive_dispatch (handleCommandReceive s pa ta).1 pb tb fb
    (throttled_of_connected _ _ (by rw [h1])) hb hrb hfb
  simp only [receivePhases]
  rw [h2, h1]
  rcases hida with ha1 | ha2 <;> rcases hidb with hb1 | hb2
  · simp [fillCommand_startRoute _ _ ha1, fillCommand_startRoute _ _ hb1, ha1, hb1]
  · simp [fillCommand_startRoute _ _ ha1, fillCommand_stopRoute _ _ hb2, ha1, hb2]
  · simp [fillCommand_stopRoute _ _ ha2, fillCommand_startRoute _ _ hb1, ha2, hb1]
  · simp [fillCommand_stopRoute _ _ ha2, fillCommand_stopRoute _ _ hb2, ha2, hb2]

/-- C8, at a value: from the initial aggregate (`is_stop_route = true`),
start then stop. -/
theorem route_flag_algebra_witness :
    (receivePhases sampleConnected
      [⟨10, portWith 3 ⟨1, 5, 6⟩⟩, ⟨20, portWith 4 ⟨2, 7, 8⟩⟩]).m_CliftonCommand.is_stop_route
      = true ∧
    (receivePhases sampleConnected
      [⟨10, portWith 3 ⟨1, 5, 6⟩⟩]).m_CliftonCommand.is_stop_route = false :=
  have h := route_flag_algebra sampleConnected (portWith 3 ⟨1, 5, 6⟩) (portWith 4 ⟨2, 7, 8⟩)
    10 20 ⟨1, 5, 6⟩ ⟨2, 7, 8⟩ (by decide) (by decide) (by decide) rfl rfl
    (Or.inl (by decide)) (Or.inr (by decide))
  ⟨h.1 (by decide) (by decide), by decide⟩

/-- C9, as stated, fails twice.  The frame 0xDE 0xAD 0xBE has the id 0xDE and
is read, yet nothing is published and `m_LastCommandReceived` keeps its
value; and the frame `[4, 0, 0]` read by the initial engine changes the
aggregate: `is_sail_agent_connected` goes from `false` to `true`. -/
theorem unrecognized_id_exceptions :
    (noCommand.b0.val = 0xDE ∧
      readAttempts (handleCommandReceive sampleConnected (portWith 3 noCommand) 5000).2 = 1 ∧
      publications (handleCommandReceive sampleConnected (portWith 3 noCommand) 5000).2
        = [] ∧
      (handleCommandReceive sampleConnected (portWith 3 noCommand) 5000).1.m_LastCommandReceived
        = 0) ∧
    (sampleConnected.m_CliftonCommand.is_sail_agent_connected = false ∧
      readAttempts (handleCommandReceive sampleConnected (portWith 3 ⟨4, 0, 0⟩) 5000).2 = 1 ∧
      (handleCommandReceive sampleConnected
        (portWith 3 ⟨4, 0, 0⟩) 5000).1.m_CliftonCommand.is_sail_agent_connected = true ∧
      (handleCommandReceive sampleConnected (portWith 3 ⟨4, 0, 0⟩) 5000).1.m_CliftonCommand
        ≠ sampleConnected.m_CliftonCommand) := by
  decide

/-- C9, amended.  When the receive phase is not throttled, at least 3 bytes
are available and the read succeeds with a frame whose id is none of 0, 1, 2,
3 and which is not 0xDE 0xAD 0xBE, the phase keeps `course` and
`is_stop_route`, sets `is_sail_agent_connected = true`, sets
`m_LastCommandReceived` to the current time and publishes the aggregate
exactly once. -/
theorem handleCommandReceive_unrecognized (s : Communication) (port : SerialPortStep)
    (now : Int) (f : Frame) (ht : throttled s now = false)
    (ha : 3 ≤ port.availableBytes) (hr : port.readData = ⟨true, f⟩)
    (h0 : f.b0.val ≠ 0) (h1 : f.b0.val ≠ 1) (h2 : f.b0.val ≠ 2) (h3 : f.b0.val ≠ 3)
    (hf : f ≠ ⟨0xDE, 0xAD, 0xBE⟩) :
    (handleCommandReceive s port now).1.m_CliftonCommand
      = { s.m_CliftonCommand with is_sail_agent_connected := true } ∧
    (handleCommandReceive s port now).1.m_LastCommandReceived = now ∧
    publications (handleCommandReceive s port now).2
      = [(handleCommandReceive s port now).1.m_CliftonCommand] := by
  rw [handleCommandReceive_dispatch s port now f ht ha hr hf,
    fillCommand_unrecognized _ _ h0 h1 h2 h3]
  exact ⟨rfl, rfl, rfl⟩

/-- C9 amended, at a value: the id 0xFF while Disconnected and not
throttled. -/
theorem handleCommandReceive_unrecognized_witness :
    (handleCommandReceive sampleDisconnected (portWith 3 ⟨0xFF, 1, 2⟩) 1000).1.m_CliftonCommand
      = { sampleDisconnected.m_CliftonCommand with is_sail_agent_connected := true } ∧
    (handleCommandReceive sampleDisconnected
      (portWith 3 ⟨0xFF, 1, 2⟩) 1000).1.m_LastCommandReceived = 1000 :=
  have h := handleCommandReceive_unrecognized sampleDisconnected (portWith 3 ⟨0xFF, 1, 2⟩)
    1000 ⟨0xFF, 1, 2⟩ (by decide) (by decide) rfl (by decide) (by decide) (by decide)
    (by decide) (by decide)
  ⟨h.1, h.2.1⟩

/-! ## The transmit phase -/

/-- C10.  Transmit gating: the transmit phase polls the two providers and
attempts one write of the telemetry struct exactly when the engine is
Connected and at least 1000 ms passed since the last transmission; otherwise
it makes no call and leaves the whole engine, so the telemetry struct and
every time stamp, unchanged. -/
theorem handleTelemetryTransmission_gating (acro : Nat) (s : Communication)
    (port : SerialPortStep) (prov : Providers) (now : Int) :
    ((s.m_IsConnected = true ∧ 1000 ≤ now - s.m_LastTelemetryTransmission) →
      (handleTelemetryTransmission acro s port prov now).2
        = [Event.sensordataPoll, Event.vehicleStatusPoll,
           Event.writeData (handleTelemetryTransmission acro s port prov now).1.m_TelemetryData]) ∧
    (¬ (s.m_IsConnected = true ∧ 1000 ≤ now - s.m_LastTelemetryTransmission) →
      (handleTelemetryTransmission acro s port prov now).2 = [] ∧
      (handleTelemetryTransmission acro s port prov now).1 = s) ∧
    ((providerPolls (handleTelemetryTransmission acro s port prov now).2 = 2 ∧
        (writeAttempts (handleTelemetryTransmission acro s port prov now).2).length = 1)
      ↔ (s.m_IsConnected = true ∧ 1000 ≤ now - s.m_LastTelemetryTransmission)) ∧
    ((s.m_IsConnected = false ∨ now - s.m_LastTelemetryTransmission ≤ 999) →
      writeAttempts (handleTelemetryTransmission acro s port prov now).2 = [] ∧
      providerPolls (handleTelemetryTransmission acro s port prov now).2 = 0 ∧
      (handleTelemetryTransmission acro s port prov now).1 = s) := by
  by_cases hy : s.m_IsConnected = true ∧ 1000 ≤ now - s.m_LastTelemetryTransmission
  · have hn : ¬ (s.m_IsConnected = false ∨ now - s.m_LastTelemetryTransmission ≤ 999) := by
      rintro (h | h)
      · rw [hy.1] at h
        cases h
      · omega
    have hv := handleTelemetryTransmission_send acro s port prov now hy.1 hy.2
    rw [hv]
    refine ⟨fun _ => rfl, fun h => absurd hy h, ⟨fun _ => hy, fun _ => ⟨rfl, rfl⟩⟩,
      fun h => absurd h hn⟩
  · have hg : s.m_IsConnected = false ∨ now - s.m_LastTelemetryTransmission < 1000 := by
      cases hc : s.m_IsConnected
      · exact Or.inl rfl
      · right
        by_contra hlt
        exact hy ⟨hc, by omega⟩
    have hv := handleTelemetryTransmission_idle acro s port prov now hg
    rw [hv]
    refine ⟨fun h => absurd h hy, fun _ => ⟨rfl, rfl⟩, ⟨fun h => ?_, fun h => absurd h hy⟩,
      fun _ => ⟨rfl, rfl, rfl⟩⟩
    simp [providerPolls] at h

/-- C11.  Transmit outcome: when the transmit phase attempts a write, a
failed write leaves the connection state, the aggregate and all three time
stamps unchanged, and a successful write sets `m_LastTelemetryTransmission`
to the current time and leaves the connection state, the aggregate,
`m_LastCommandReceived` and `m_LastReconnectCheck` unchanged. -/
theorem handleTelemetryTransmission_outcome (acro : Nat) (s : Communication)
    (port : SerialPortStep) (prov : Providers) (now : Int)
    (hw : writeAttempts (handleTelemetryTransmission acro s port prov now).2 ≠ []) :
    (handleTelemetryTransmission acro s port prov now).1.m_IsConnected = s.m_IsConnected ∧
    (handleTelemetryTransmission acro s port prov now).1.m_CliftonCommand
      = s.m_CliftonCommand ∧
    (handleTelemetryTransmission acro s port prov now).1.m_LastCommandReceived
      = s.m_LastCommandReceived ∧
    (handleTelemetryTransmission acro s port prov now).1.m_LastReconnectCheck
      = s.m_LastReconnectCheck ∧
    (port.writeData = false →
      (handleTelemetryTransmission acro s port prov now).1.m_LastTelemetryTransmission
        = s.m_LastTelemetryTransmission) ∧
    (port.writeData = true →
      (handleTelemetryTransmission acro s port prov now).1.m_LastTelemetryTransmission
        = now) := by
  by_cases hg : s.m_IsConnected = false ∨ now - s.m_LastTelemetryTransmission < 1000
  · rw [handleTelemetryTransmission_idle acro s port prov now hg] at hw
    exact absurd rfl hw
  · have hc : s.m_IsConnected = true := by
      cases h : s.m_IsConnected
      · exact absurd (Or.inl h) hg
      · rfl
    have he : 1000 ≤ now - s.m_LastTelemetryTransmission := by
      by_contra h
      exact hg (Or.inr (by omega))
    rw [handleTelemetryTransmission_send acro s port prov now hc he]
    refine ⟨rfl, rfl, rfl, rfl, fun h => ?_, fun h => ?_⟩ <;> simp [h]

/-- C11, at a value: 1000 ms after the last transmission, a write that
succeeds. -/
theorem handleTelemetryTransmission_outcome_witness :
    (handleTelemetryTransmission 10 sampleConnected (portWith 0 noCommand) ⟨none, none⟩
      1000).1.m_LastTelemetryTransmission = 1000 :=
  (handleTelemetryTransmission_outcome 10 sampleConnected (portWith 0 noCommand)
    ⟨none, none⟩ 1000 (by decide)).2.2.2.2.2 rfl

/-- C13.  Unknown-value sentinels: whatever the telemetry struct held,
`invalidateTelemetryData` sets the four `uint16_t` fields to 65535, the two
`int16_t` fields to 32767, `batteryStatus` to 255 and the status byte to 255,
and the struct of the constructed engine, and of the engine when the worker
starts, has these values. -/
theorem invalidateTelemetryData_values (t garbage : TelemetryData) :
    (invalidateTelemetryData t).windDirection = 65535 ∧
    (invalidateTelemetryData t).windSpeed = 65535 ∧
    (invalidateTelemetryData t).agentSpeed = 65535 ∧
    (invalidateTelemetryData t).agentDirection = 65535 ∧
    (invalidateTelemetryData t).agentPosX = 32767 ∧
    (invalidateTelemetryData t).agentPosY = 32767 ∧
    (invalidateTelemetryData t).batteryStatus = 255 ∧
    (invalidateTelemetryData t).statusInfo = 255 ∧
    invalidateTelemetryData ⟨0, 0, 0, 0, 0, 0, 0, 0⟩
      = ⟨65535, 65535, 65535, 32767, 32767, 255, 65535, 255⟩ ∧
    (Communication.ctor garbage).m_TelemetryData
      = ⟨65535, 65535, 65535, 32767, 32767, 255, 65535, 255⟩ ∧
    (initialEngine garbage).m_TelemetryData
      = ⟨65535, 65535, 65535, 32767, 32767, 255, 65535, 255⟩ :=
  ⟨rfl, rfl, rfl, rfl, rfl, rfl, rfl, rfl, rfl, rfl, rfl⟩

/-- C18.  Partial staleness: `sensordataPoll` without fresh data returns the
struct as it is, and with a sample it sets the seven fields `windDirection`,
`windSpeed`, `agentSpeed`, `agentPosX`, `agentPosY`, `batteryStatus` and
`agentDirection` from the sample and keeps the status byte;
`vehicleStatusPoll` without fresh data returns the struct as it is, and with
a sample it keeps the seven fields and bits 1 to 7 of the status byte and
sets bit 0 to whether `nav_state` is `NAVIGATION_STATE_ACRO`. -/
theorem poll_partial_staleness (acro : Nat) (t : TelemetryData) (d : Sensordaten)
    (v : VehicleStatus) :
    sensordataPoll none t = t ∧
    sensordataPoll (some d) t =
      { windDirection := toUInt16 d.median_wind_direction
        windSpeed := toUInt16 d.wind_speed
        agentSpeed := toUInt16 d.clifton_speed
        agentPosX := toInt16 d.ned_x
        agentPosY := toInt16 d.ned_y
        batteryStatus := toUInt8 d.battery_status
        agentDirection := toUInt16 d.clifton_direction
        statusInfo := t.statusInfo } ∧
    vehicleStatusPoll acro none t = t ∧
    vehicleStatusPoll acro (some v) t
      = { t with statusInfo := (vehicleStatusPoll acro (some v) t).statusInfo } ∧
    (vehicleStatusPoll acro (some v) t).statusInfo / 2 = t.statusInfo / 2 ∧
    (vehicleStatusPoll acro (some v) t).statusInfo % 2
      = (if v.nav_state = acro then 1 else 0) := by
  refine ⟨rfl, rfl, rfl, rfl, ?_, ?_⟩
  · simp only [vehicleStatusPoll, setIsAutonomous]
    split_ifs <;> omega
  · simp only [vehicleStatusPoll, setIsAutonomous]
    by_cases h : v.nav_state = acro
    · simp only [h, decide_True, if_true]
      omega
    · simp only [h, decide_False, if_false]
      simp

/-- C19.  Partial frame never times out: with one or two bytes pending the
receive phase makes no call (no read, no publish) and leaves the whole engine
unchanged, whatever the time; and over a run of the worker from a Connected
engine in which every iteration sees one or two bytes pending, the engine
stays Connected, nothing is read or published, and the aggregate and
`m_LastCommandReceived` keep their values. -/
theorem partial_frame_never_times_out (acro : Nat) (s : Communication)
    (port : SerialPortStep) (now : Int) (inputs : List WorkerInput)
    (ha : port.availableBytes = 1 ∨ port.availableBytes = 2)
    (hc : s.m_IsConnected = true)
    (hall : ∀ i ∈ inputs, i.port.availableBytes = 1 ∨ i.port.availableBytes = 2) :
    (handleCommandReceive s port now).2 = [] ∧
    (handleCommandReceive s port now).1 = s ∧
    (worker acro s inputs).1.m_IsConnected = true ∧
    (worker acro s inputs).1.m_CliftonCommand = s.m_CliftonCommand ∧
    (worker acro s inputs).1.m_LastCommandReceived = s.m_LastCommandReceived ∧
    publications (worker acro s inputs).2 = [] ∧
    readAttempts (worker acro s inputs).2 = 0 := by
  have h1 := handleCommandReceive_short s port now ha
  obtain ⟨w1, w2, w3, _, w5, w6⟩ := worker_short acro inputs s hall
  rw [h1]
  exact ⟨rfl, rfl, w1.trans hc, w2, w3, w5, w6⟩

/-- C19, at a value: a Connected engine whose last command was at 0 sees two
bytes pending at 100000 ms and again at 200000 ms. -/
theorem partial_frame_never_times_out_witness :
    (handleCommandReceive sampleConnected (portWith 2 noCommand) 100000).1 = sampleConnected ∧
    (worker 10 sampleConnected
      [⟨100000, portWith 2 noCommand, ⟨none, none⟩⟩,
       ⟨200000, portWith 1 noCommand, ⟨none, none⟩⟩]).1.m_IsConnected = true :=
  have h := partial_frame_never_times_out 10 sampleConnected (portWith 2 noCommand) 100000
    [⟨100000, portWith 2 noCommand, ⟨none, none⟩⟩,
     ⟨200000, portWith 1 noCommand, ⟨none, none⟩⟩]
    (by decide) (by decide) (by decide)
  ⟨h.2.1, h.2.2.1⟩

/-! ## The telemetry struct -/

/-- C12, as stated, fails: the status byte of the initial engine is 0xFF, and
the struct written after a status poll that finds another navigation state
carries 0xFE; in both bits 1 to 7 are set. -/
theorem statusInfo_reserved_bits_set :
    (initialEngine ⟨0, 0, 0, 0, 0, 0, 0, 0⟩).m_TelemetryData.statusInfo = 0xFF ∧
    reservedBits (initialEngine ⟨0, 0, 0, 0, 0, 0, 0, 0⟩).m_TelemetryData.statusInfo ≠ 0 ∧
    (writeAttempts (worker 10 (initialEngine ⟨0, 0, 0, 0, 0, 0, 0, 0⟩)
      [⟨1000, portWith 0 noCommand, ⟨none, some ⟨3⟩⟩⟩]).2).map (fun d => d.statusInfo)
      = [0xFE] ∧
    reservedBits 0xFE ≠ 0 := by
  decide

/-- C12, amended.  In the telemetry struct the engine holds after any run of
the worker from the initial engine, and in every struct it hands to
`writeData` during the run, bits 1 to 7 of the status byte are all set (the
value `invalidateTelemetryData` gives them), so the byte is 0xFE or 0xFF
according to bit 0. -/
theorem statusInfo_reserved_bits (acro : Nat) (garbage : TelemetryData)
    (inputs : List WorkerInput) :
    reservedBits (worker acro (initialEngine garbage) inputs).1.m_TelemetryData.statusInfo
      = 127 ∧
    ((worker acro (initialEngine garbage) inputs).1.m_TelemetryData.statusInfo = 0xFE ∨
      (worker acro (initialEngine garbage) inputs).1.m_TelemetryData.statusInfo = 0xFF) ∧
    ∀ d ∈ writeAttempts (worker acro (initialEngine garbage) inputs).2,
      reservedBits d.statusInfo = 127 ∧ (d.statusInfo = 0xFE ∨ d.statusInfo = 0xFF) := by
  have h := worker_status acro inputs (initialEngine garbage)
  have h1 : (initialEngine garbage).m_TelemetryData.statusInfo = 255 := rfl
  have h0 : (initialEngine garbage).m_TelemetryData.statusInfo / 2 = 127 := by
    rw [h1]
  rw [h0] at h
  refine ⟨?_, ?_, fun d hd => ⟨?_, ?_⟩⟩
  · simp only [reservedBits, h.1]
  · omega
  · simp only [reservedBits, h.2 d hd]
  · have := h.2 d hd
    omega

/-! ## Runs of the worker -/

/-- C16, as stated, fails: the initial engine is reachable and Connected, its
aggregate has `is_sail_agent_connected = false`, and a `SET_COURSE` frame read
by it sets the flag to `true`. -/
theorem setCourse_changes_initial_flag :
    Reachable 10 sampleConnected ∧
    sampleConnected.m_IsConnected = true ∧
    sampleConnected.m_CliftonCommand.is_sail_agent_connected = false ∧
    (handleCommandReceive sampleConnected
      (portWith 3 ⟨0x03, 0x2C, 0x01⟩) 42).1.m_CliftonCommand.is_sail_agent_connected
      = true :=
  ⟨⟨⟨0, 0, 0, 0, 0, 0, 0, 0⟩, [], rfl⟩, by decide, by decide, by decide⟩

/-- C16, amended.  For an engine reached from the initial engine by a run of
the worker during which the aggregate was published at least once, and which
is Connected: when at least 3 bytes are available and the read succeeds with
a `SET_COURSE` frame, the receive phase leaves `is_stop_route` and
`is_sail_agent_connected` as they were. -/
theorem setCourse_keeps_flags (acro : Nat) (garbage : TelemetryData)
    (inputs : List WorkerInput) (port : SerialPortStep) (now : Int) (b1 b2 : Byte)
    (hpub : publications (worker acro (initialEngine garbage) inputs).2 ≠ [])
    (hc : (worker acro (initialEngine garbage) inputs).1.m_IsConnected = true)
    (ha : 3 ≤ port.availableBytes) (hr : port.readData = ⟨true, ⟨3, b1, b2⟩⟩) :
    Reachable acro (worker acro (initialEngine garbage) inputs).1 ∧
    (handleCommandReceive (worker acro (initialEngine garbage) inputs).1
        port now).1.m_CliftonCommand.is_stop_route
      = (worker acro (initialEngine garbage) inputs).1.m_CliftonCommand.is_stop_route ∧
    (handleCommandReceive (worker acro (initialEngine garbage) inputs).1
        port now).1.m_CliftonCommand.is_sail_agent_connected
      = (worker acro (initialEngine garbage) inputs).1.m_CliftonCommand.is_sail_agent_connected := by
  have hs := worker_sync acro inputs (initialEngine garbage) (Or.inl hpub)
  have hf : (⟨3, b1, b2⟩ : Frame) ≠ noCommand :=
    ne_noCommand_of_id _ (by show (3 : Byte).val ≠ 0xDE; decide)
  rw [handleCommandReceive_dispatch _ port now ⟨3, b1, b2⟩
    (throttled_of_connected _ _ hc) ha hr hf, fillCommand_setCourse _ _ rfl]
  refine ⟨⟨garbage, inputs, rfl⟩, rfl, ?_⟩
  rw [hs, hc]

/-- C16 amended, at a value: the engine after one iteration that read a
heartbeat. -/
theorem setCourse_keeps_flags_witness :
    (handleCommandReceive (worker 10 (initialEngine ⟨0, 0, 0, 0, 0, 0, 0, 0⟩)
        [⟨10, portWith 3 ⟨0, 0, 0⟩, ⟨none, none⟩⟩]).1
      (portWith 3 ⟨0x03, 0x2C, 0x01⟩) 42).1.m_CliftonCommand.is_sail_agent_connected
    = (worker 10 (initialEngine ⟨0, 0, 0, 0, 0, 0, 0, 0⟩)
        [⟨10, portWith 3 ⟨0, 0, 0⟩, ⟨none, none⟩⟩]).1.m_CliftonCommand.is_sail_agent_connected :=
  (setCourse_keeps_flags 10 ⟨0, 0, 0, 0, 0, 0, 0, 0⟩
    [⟨10, portWith 3 ⟨0, 0, 0⟩, ⟨none, none⟩⟩] (portWith 3 ⟨0x03, 0x2C, 0x01⟩) 42
    0x2C 0x01 (by decide) (by decide) (by decide) rfl).2.2

/-- C17.  Monotone time stamps: over a run of the worker from the initial
engine whose times are non-negative and non-decreasing, whatever the serial
port and the providers answer, an iteration does not decrease
`m_LastCommandReceived`, `m_LastTelemetryTransmission` or
`m_LastReconnectCheck`, and after it none of them exceeds its time. -/
theorem timestamps_monotone (acro : Nat) (garbage : TelemetryData)
    (pre : List WorkerInput) (i : WorkerInput)
    (hnn : ∀ j ∈ pre ++ [i], 0 ≤ j.currentSysTime)
    (hsorted : List.Pairwise (fun a b : Int => a ≤ b)
      ((pre ++ [i]).map (fun j => j.currentSysTime))) :
    ((worker acro (initialEngine garbage) pre).1.m_LastCommandReceived
        ≤ (worker acro (initialEngine garbage) (pre ++ [i])).1.m_LastCommandReceived ∧
      (worker acro (initialEngine garbage) (pre ++ [i])).1.m_LastCommandReceived
        ≤ i.currentSysTime) ∧
    ((worker acro (initialEngine garbage) pre).1.m_LastTelemetryTransmission
        ≤ (worker acro (initialEngine garbage) (pre ++ [i])).1.m_LastTelemetryTransmission ∧
      (worker acro (initialEngine garbage) (pre ++ [i])).1.m_LastTelemetryTransmission
        ≤ i.currentSysTime) ∧
    ((worker acro (initialEngine garbage) pre).1.m_LastReconnectCheck
        ≤ (worker acro (initialEngine garbage) (pre ++ [i])).1.m_LastReconnectCheck ∧
      (worker acro (initialEngine garbage) (pre ++ [i])).1.m_LastReconnectCheck
        ≤ i.currentSysTime) := by
  have h0 : 0 ≤ i.currentSysTime := hnn i (by simp)
  have hle : ∀ j ∈ pre, j.currentSysTime ≤ i.currentSysTime := by
    intro j hj
    rw [List.map_append, List.pairwise_append] at hsorted
    exact hsorted.2.2 _ (List.mem_map_of_mem _ hj) _ (by simp)
  obtain ⟨b1, b2, b3⟩ := worker_timestamps_le acro i.currentSysTime pre
    (initialEngine garbage) hle h0 h0 h0
  rw [worker_append_fst acro pre [i] (initialEngine garbage)]
  by_cases hrun : (worker acro (initialEngine garbage) pre).1.m_ThreadRunning = false
  · rw [worker_stopped acro _ _ hrun]
    exact ⟨⟨le_refl _, b1⟩, ⟨le_refl _, b2⟩, ⟨le_refl _, b3⟩⟩
  · rw [worker_cons acro _ i [] hrun]
    obtain ⟨t1, t2, t3⟩ :=
      workerStep_timestamps acro (worker acro (initialEngine garbage) pre).1 i
    simp only [worker]
    refine ⟨?_, ?_, ?_⟩
    · rcases t1 with t | t <;> rw [t]
      · exact ⟨le_refl _, b1⟩
      · exact ⟨b1, le_refl _⟩
    · rcases t2 with t | t <;> rw [t]
      · exact ⟨le_refl _, b2⟩
      · exact ⟨b2, le_refl _⟩
    · rcases t3 with t | t <;> rw [t]
      · exact ⟨le_refl _, b3⟩
      · exact ⟨b3, le_refl _⟩

/-- C17, at a value: a timeout at 3000 ms, then a heartbeat at 4000 ms. -/
theorem timestamps_monotone_witness :
    (worker 10 (initialEngine ⟨0, 0, 0, 0, 0, 0, 0, 0⟩)
        [⟨3000, portWith 0 noCommand, ⟨none, none⟩⟩]).1.m_LastCommandReceived
      ≤ (worker 10 (initialEngine ⟨0, 0, 0, 0, 0, 0, 0, 0⟩)
        ([⟨3000, portWith 0 noCommand, ⟨none, none⟩⟩]
          ++ [⟨4000, portWith 3 ⟨0, 0, 0⟩, ⟨none, none⟩⟩])).1.m_LastCommandReceived ∧
    (worker 10 (initialEngine ⟨0, 0, 0, 0, 0, 0, 0, 0⟩)
        ([⟨3000, portWith 0 noCommand, ⟨none, none⟩⟩]
          ++ [⟨4000, portWith 3 ⟨0, 0, 0⟩, ⟨none, none⟩⟩])).1.m_LastCommandReceived
      ≤ 4000 :=
  (timestamps_monotone 10 ⟨0, 0, 0, 0, 0, 0, 0, 0⟩
    [⟨3000, portWith 0 noCommand, ⟨none, none⟩⟩]
    ⟨4000, portWith 3 ⟨0, 0, 0⟩, ⟨none, none⟩⟩ (by decide) (by decide)).1

/-- C20.  Published flag matches connection state: in every iteration of a
run of the worker from the initial engine, and in a receive phase from any
engine, an aggregate that is published has `is_sail_agent_connected` equal to
the connection state the phase ends with, which is the connection state at
the publish since nothing after the publish and nothing in the transmit phase
changes it; the initial engine is Connected with an aggregate, not published,
whose flag is `false`. -/
theorem published_flag_matches_state (acro : Nat) (garbage : TelemetryData)
    (pre : List WorkerInput) (i : WorkerInput) :
    (∀ c ∈ publications (workerStep acro (worker acro (initialEngine garbage) pre).1 i).2,
      c.is_sail_agent_connected
        = (workerStep acro (worker acro (initialEngine garbage) pre).1 i).1.m_IsConnected) ∧
    (∀ (s : Communication) (port : SerialPortStep) (now : Int),
      ∀ c ∈ publications (handleCommandReceive s port now).2,
        c.is_sail_agent_connected = (handleCommandReceive s port now).1.m_IsConnected) ∧
    (∀ (s : Communication) (port : SerialPortStep) (prov : Providers) (now : Int),
      publications (handleTelemetryTransmission acro s port prov now).2 = [] ∧
      (handleTelemetryTransmission acro s port prov now).1.m_IsConnected
        = s.m_IsConnected) ∧
    (initialEngine garbage).m_IsConnected = true ∧
    (initialEngine garbage).m_CliftonCommand.is_sail_agent_connected = false := by
  refine ⟨fun c hc => ?_, fun s port now c hc => ?_, fun s port prov now => ?_, rfl, rfl⟩
  · rcases workerStep_sync acro (worker acro (initialEngine garbage) pre).1 i with
      ⟨h1, _⟩ | ⟨h1, h2⟩
    · rw [h1] at hc
      simp at hc
    · rw [h1, List.mem_singleton] at hc
      rw [hc, h2]
  · rcases handleCommandReceive_sync s port now with ⟨h1, _⟩ | ⟨h1, h2⟩
    · rw [h1] at hc
      simp at hc
    · rw [h1, List.mem_singleton] at hc
      rw [hc, h2]
  · have h := handleTelemetryTransmission_keeps acro s port prov now
    exact ⟨h.1, h.2.1⟩

/-! ## The wire format -/

/-- C14.  Telemetry frame round trip: for field values in the ranges of
their types, the bytes handed to `writeData` are exactly 14, the fields in
declaration order at the offsets 0, 2, 4, 6, 8, 10, 11 and 13, each 16-bit
field with its low byte first and the signed ones in two's complement, and
decoding these bytes with the same layout gives the field values back. -/
theorem telemetry_round_trip (d : TelemetryData)
    (h1 : d.windDirection ≤ 65535) (h2 : d.windSpeed ≤ 65535) (h3 : d.agentSpeed ≤ 65535)
    (h4 : -32768 ≤ d.agentPosX ∧ d.agentPosX ≤ 32767)
    (h5 : -32768 ≤ d.agentPosY ∧ d.agentPosY ≤ 32767)
    (h6 : d.batteryStatus ≤ 255) (h7 : d.agentDirection ≤ 65535) (h8 : d.statusInfo ≤ 255) :
    d.bytes.length = 14 ∧
    d.bytes.map (fun b => (b.val : Int)) =
      [(d.windDirection : Int) % 256, (d.windDirection : Int) / 256,
       (d.windSpeed : Int) % 256, (d.windSpeed : Int) / 256,
       (d.agentSpeed : Int) % 256, (d.agentSpeed : Int) / 256,
       d.agentPosX % 256, d.agentPosX / 256 % 256,
       d.agentPosY % 256, d.agentPosY / 256 % 256,
       (d.batteryStatus : Int),
       (d.agentDirection : Int) % 256, (d.agentDirection : Int) / 256,
       (d.statusInfo : Int)] ∧
    decodeTelemetry d.bytes = some d := by
  refine ⟨rfl, ?_, ?_⟩
  · simp only [TelemetryData.bytes, bytes16, byteOf, toUInt16, List.cons_append,
      List.nil_append, List.map_cons, List.map_nil, List.cons.injEq, and_true]
    refine ⟨?_, ?_, ?_, ?_, ?_, ?_, ?_, ?_, ?_, ?_, ?_, ?_, ?_, ?_⟩ <;> omega
  · simp only [TelemetryData.bytes, bytes16, List.cons_append, List.nil_append,
      decodeTelemetry]
    rw [readUInt16_bytes16 _ (by omega), readUInt16_bytes16 _ (by omega),
      readUInt16_bytes16 _ (by omega), readUInt16_bytes16 _ (by omega),
      readInt16_bytes16 _ h4.1 h4.2, readInt16_bytes16 _ h5.1 h5.2]
    have e6 : (byteOf d.batteryStatus).val = d.batteryStatus := by
      simp only [byteOf]; omega
    have e8 : (byteOf d.statusInfo).val = d.statusInfo := by
      simp only [byteOf]; omega
    rw [e6, e8]

/-- C14, at values: all fields at their maximum, and all fields at their
minimum. -/
theorem telemetry_round_trip_witness :
    decodeTelemetry
        (TelemetryData.bytes ⟨65535, 65535, 65535, 32767, 32767, 255, 65535, 255⟩)
      = some ⟨65535, 65535, 65535, 32767, 32767, 255, 65535, 255⟩ ∧
    decodeTelemetry (TelemetryData.bytes ⟨0, 0, 0, -32768, -32768, 0, 0, 0⟩)
      = some ⟨0, 0, 0, -32768, -32768, 0, 0, 0⟩ :=
  ⟨(telemetry_round_trip ⟨65535, 65535, 65535, 32767, 32767, 255, 65535, 255⟩
      (by decide) (by decide) (by decide) (by decide) (by decide) (by decide) (by decide)
      (by decide)).2.2,
    (telemetry_round_trip ⟨0, 0, 0, -32768, -32768, 0, 0, 0⟩
      (by decide) (by decide) (by decide) (by decide) (by decide) (by decide) (by decide)
      (by decide)).2.2⟩

/-! ## The serial port -/

/-- C15.  Exact-length transport loops: over call results each at most the
bytes still missing, `readData` returns `false` exactly when a call returns a
negative result before `size` bytes are counted, returns `true` exactly when
the non-negative results counted reach `size`, never counts more than `size`
bytes and counts `size` when it returns `true`, and returns within `size`
calls when no call returns 0; `writeData` does the same. -/
theorem exact_length_transport (size : Nat) (results : List Int)
    (h : withinRequest size results 0 = true) :
    ExactLength SerialPort.readData size results ∧
    ExactLength SerialPort.writeData size results := by
  have hr := readData_exactLength size results h
  have hw : SerialPort.writeData = SerialPort.readData := by
    funext n l
    exact writeLoop_eq_readLoop n l 0
  rw [hw]
  exact ⟨hr, hr⟩

/-- C15, at values: a read of 3 bytes in two calls succeeds, and a read
whose second call fails returns `false`. -/
theorem exact_length_transport_witness :
    (SerialPort.readData 3 [1, 2]).returned = some true ∧
    (SerialPort.readData 3 [1, 2]).bytes = 3 ∧
    (SerialPort.readData 3 [1, -1]).returned = some false :=
  have h := (exact_length_transport 3 [1, 2] (by decide)).1
  ⟨h.2.1.2 ⟨[1, 2], [], rfl, by decide, by decide⟩,
    h.2.2.2.1 (h.2.1.2 ⟨[1, 2], [], rfl, by decide, by decide⟩),
    by decide⟩

end XBee
